import Mathlib

/-!
# USRP2YSF gateway: shallow embedding and verified properties

The development embeds the callsign helpers and the main loop of
`src/USRP2YSF/USRP2YSF.cpp` (`trim_callsign`, `pad_callsign`, `CUSRP2YSF::run`) and the
network readers `CUSRPNetwork::readData` and `CM17Network::readData` of `src/USRP2M17`.

Conventions of the embedding:

* a byte buffer or a `std::string` is a `List Nat` whose elements are byte
  values (`0 .. 255`); stores into a `uint8_t` cell reduce modulo 256;
* an `int16_t` sample is an `Int` in `-32768 .. 32767`;
* calls into the Converter (`m_conv.put...`) are recorded as a trace of
  `ConvEvent`s returned next to the new state;
* constants that come from headers outside `src/` are fields of `Defines`.
-/

set_option maxRecDepth 100000

namespace USRP2YSF

/-- Byte sequences: buffers, datagrams and `std::string` values. -/
abbrev Bytes := List Nat

/-- Byte values of a string literal. -/
def ascii (s : String) : Bytes := s.data.map (fun ch => ch.toNat)

/-- Position value `std::string::npos` (the largest `size_t`, 64-bit). -/
def npos : Nat := 2 ^ 64 - 1

/-- Scan of `std::string::find_first_not_of` from index `i` on. -/
def find_first_not_of_from (chars : Bytes) : Bytes → Nat → Nat
  | [], _ => npos
  | x :: xs, i => if chars.contains x then find_first_not_of_from chars xs (i + 1) else i

/-- Index of the first byte of `s` that is not in `chars`, `npos` when there is none
(`std::string::find_first_not_of`). -/
def find_first_not_of (s chars : Bytes) : Nat := find_first_not_of_from chars s 0

/-- Substring from position 0 (`std::string::substr (0, n)`): at most `n` bytes. -/
def substr0 (s : Bytes) (n : Nat) : Bytes := s.take n

/-- Local constant `ACCEPTABLECHARS` of `trim_callsign`. -/
def ACCEPTABLECHARS : Bytes := ascii "0123456789ABCDEFGHIJKLMNOPQRSTUVWXYZ"

/-- Function `trim_callsign` (USRP2YSF.cpp lines 63-70). -/
def trim_callsign (s : Bytes) : Bytes :=
  let start := find_first_not_of s ACCEPTABLECHARS
  let start := if start > 8 then 8 else start
  substr0 s start

/-- Function `pad_callsign` (USRP2YSF.cpp lines 74-78); the string passed by reference is
returned. `paddingChar` defaults to a space (byte 32) at every call site. -/
def pad_callsign (str : Bytes) (num : Nat) (paddingChar : Nat := 32) : Bytes :=
  if num > str.length then str ++ List.replicate (num - str.length) paddingChar else str

/-- Digits and upper-case letters, by byte range. -/
def isAlnumUpper (b : Nat) : Bool := (48 ≤ b && b ≤ 57) || (65 ≤ b && b ≤ 90)

/-! ## Constants and configuration declared outside `src/` -/

/-- Constants used by `CUSRP2YSF::run` whose definitions live in headers that are not part
of the sources at hand (`USRP2YSF.h`, `YSFDefines.h`, the Converter's header). They are
parameters of the embedding; no theorem depends on particular values unless it says so. -/
structure Defines where
  USRP_TYPE_VOICE : Nat
  USRP_TYPE_TEXT : Nat
  USRP_KEYUP_TRUE : Nat
  USRP_KEYUP_FALSE : Nat
  TLV_TAG_SET_INFO : Nat
  YSF_FI_HEADER : Nat
  YSF_FI_COMMUNICATIONS : Nat
  YSF_FI_TERMINATOR : Nat
  YSF_DT_VD_MODE2 : Nat
  TAG_USRP_HEADER : Nat
  TAG_USRP_EOT : Nat
  TAG_USRP_DATA : Nat
  TAG_HEADER : Nat
  TAG_EOT : Nat
  TAG_DATA : Nat
deriving DecidableEq

/-- One concrete choice of the constants (the values customary for these protocols), used
to evaluate the embedding on concrete inputs. -/
def Defines.sample : Defines where
  USRP_TYPE_VOICE := 0
  USRP_TYPE_TEXT := 2
  USRP_KEYUP_TRUE := 1
  USRP_KEYUP_FALSE := 0
  TLV_TAG_SET_INFO := 8
  YSF_FI_HEADER := 0
  YSF_FI_COMMUNICATIONS := 1
  YSF_FI_TERMINATOR := 2
  YSF_DT_VD_MODE2 := 2
  TAG_USRP_HEADER := 0
  TAG_USRP_EOT := 3
  TAG_USRP_DATA := 1
  TAG_HEADER := 0
  TAG_EOT := 3
  TAG_DATA := 1

/-- Modelled from the spec: `YSF_CALLSIGN_LENGTH` (from `YSFDefines.h`, not under `src/`);
the spec gives the frame "three 10-byte callsign fields". -/
def YSF_CALLSIGN_LENGTH : Nat := 10

/-! ## State of the gateway and Converter trace -/

/-- Calls made on the Converter `m_conv` by the two receive loops. -/
inductive ConvEvent where
  | putUSRPHeader
  | putUSRP (pcm : List Int)
  | putUSRPEOT
  | putYSFHeader
  | putYSF (data : Bytes)
  | putYSFEOT
deriving DecidableEq

/-- Mutable state of `CUSRP2YSF::run`: the members `m_usrpcs`, `m_usrpFrames`,
`m_usrpFrame` (400 bytes), `m_ysfFrame` (200 bytes) and the locals `usrp_cnt` (`uint32_t`)
and `ysf_cnt` (`unsigned char`). `m_usrpFrames` is an unsigned 32-bit counter. -/
structure Gateway where
  m_usrpcs : Bytes
  m_usrpFrames : Nat
  m_usrpFrame : Bytes
  m_ysfFrame : Bytes
  usrp_cnt : Nat
  ysf_cnt : Nat
deriving DecidableEq

/-- State after the constructor and the initialisations before the main loop. -/
def Gateway.init : Gateway where
  m_usrpcs := []
  m_usrpFrames := 0
  m_usrpFrame := List.replicate 400 0
  m_ysfFrame := List.replicate 200 0
  usrp_cnt := 0
  ysf_cnt := 0

/-! ## Memory helpers -/

/-- Byte `buf[i]`. -/
def byteAt (buf : Bytes) (i : Nat) : Nat := buf.getD i 0

/-- Effect of `memset (buf + off, v, n)`, for `off + n` within the buffer. -/
def memset (buf : Bytes) (off v n : Nat) : Bytes :=
  buf.take off ++ List.replicate n (v % 256) ++ buf.drop (off + n)

/-- Effect of `memcpy (buf + off, src, n)` for a source holding at least `n` bytes and
`off + n` within the buffer. -/
def memcpy (buf : Bytes) (off : Nat) (src : Bytes) (n : Nat) : Bytes :=
  buf.take off ++ src.take n ++ buf.drop (off + n)

/-- Test `memcmp (buf, lit, n) == 0`. -/
def memcmpEq (buf lit : Bytes) (n : Nat) : Bool := buf.take n == lit.take n

/-- The C string starting at `buf + off`: the bytes before the first NUL. The buffer is a
400-byte allocation; a string with no NUL before its end would be read past the
allocation, which C leaves undefined, and the model stops at the end of the buffer. -/
def cstrAt (buf : Bytes) (off : Nat) : Bytes := (buf.drop off).takeWhile (fun b => b != 0)

/-- Socket read of one datagram `d` into a buffer of capacity `cap`: the first
`min |d| cap` bytes are overwritten, the rest of the buffer keeps its old contents; the
length returned is the number of bytes stored. -/
def recvInto (buf : Bytes) (cap : Nat) (d : Bytes) : Bytes × Nat :=
  let len := min d.length cap
  (d.take len ++ buf.drop len, len)

/-- Conversion of an `int` value to `int16_t` (two's complement wrap). -/
def toInt16 (v : Int) : Int :=
  let r := v % 65536
  if r ≥ 32768 then r - 65536 else r

/-- The `pcm` array filled by the loop at lines 300-302:
`pcm[i] = (m_usrpFrame[32+(i*2)+1] << 8) | m_usrpFrame[32+(i*2)]`. -/
def decodePCM (frame : Bytes) : List Int :=
  (List.range 160).map (fun i =>
    toInt16 (((byteAt frame (32 + (i * 2) + 1) <<< 8) ||| byteAt frame (32 + (i * 2)) : Nat) : Int))

/-! ## Direction A (USRP) receive loop, lines 272-307 -/

/-- Body of the `while` loop at lines 272-307 for one datagram already stored in
`m_usrpFrame`, `len` being the value returned by `readData`. -/
def usrpRxBody (c : Defines) (g : Gateway) (len : Nat) : Gateway × List ConvEvent :=
  let marker := memcmpEq g.m_usrpFrame (ascii "USRP") 4
  let r1 : Gateway × List ConvEvent :=
    if marker && len == 32 then
      ({ g with m_usrpcs := [], m_usrpFrames := 0 }, [ConvEvent.putUSRPEOT])
    else (g, [])
  let g1 := r1.1
  let ev1 := r1.2
  if marker && len == 352 then
    if byteAt g1.m_usrpFrame 20 == c.USRP_TYPE_TEXT
        && byteAt g1.m_usrpFrame 32 == c.TLV_TAG_SET_INFO then
      let cs := pad_callsign (cstrAt g1.m_usrpFrame 46) 10
      let ev2 := if g1.m_usrpFrames == 0 then [ConvEvent.putUSRPHeader] else []
      ({ g1 with m_usrpcs := cs, m_usrpFrames := (g1.m_usrpFrames + 1) % 2 ^ 32 }, ev1 ++ ev2)
    else if byteAt g1.m_usrpFrame 20 == c.USRP_TYPE_VOICE
        && byteAt g1.m_usrpFrame 15 == c.USRP_KEYUP_TRUE then
      let ev2 := if g1.m_usrpFrames == 0 then [ConvEvent.putUSRPHeader] else []
      let pcm := decodePCM g1.m_usrpFrame
      ({ g1 with m_usrpFrames := (g1.m_usrpFrames + 1) % 2 ^ 32 },
        ev1 ++ ev2 ++ [ConvEvent.putUSRP pcm])
    else (g1, ev1)
  else (g1, ev1)

/-- One datagram `d` delivered by the USRP socket from the configured peer:
`readData (m_usrpFrame, 400)` stores it and the loop body runs when the length returned is
not zero (a zero length ends the loop without dispatching anything). -/
def usrpRx (c : Defines) (g : Gateway) (d : Bytes) : Gateway × List ConvEvent :=
  let r := recvInto g.m_usrpFrame 400 d
  if r.2 == 0 then (g, [])
  else usrpRxBody c { g with m_usrpFrame := r.1 } r.2

/-- The receive loop over a sequence of datagrams, with the Converter calls in order. -/
def usrpRxAll (c : Defines) : Gateway → List Bytes → Gateway × List ConvEvent
  | g, [] => (g, [])
  | g, d :: ds =>
    let r := usrpRx c g d
    let r2 := usrpRxAll c r.1 ds
    (r2.1, r.2 ++ r2.2)

/-- Kinds of protocol-A datagram (spec section 3, `FrameA`). -/
inductive FrameA where
  | Voice
  | TextInfo
  | EndOfTransmission
  | Unrecognized
deriving DecidableEq

/-- Classification of a received datagram by the shapes the receive loop tests: marker
`USRP` with length 32; marker with length 352, type TEXT and the set-info tag at byte 32;
marker with length 352, type VOICE and keyup true at byte 15. -/
def classify (c : Defines) (d : Bytes) : FrameA :=
  if d.take 4 = ascii "USRP" then
    if d.length = 32 then FrameA.EndOfTransmission
    else if d.length = 352 then
      if byteAt d 20 = c.USRP_TYPE_TEXT ∧ byteAt d 32 = c.TLV_TAG_SET_INFO then FrameA.TextInfo
      else if byteAt d 20 = c.USRP_TYPE_VOICE ∧ byteAt d 15 = c.USRP_KEYUP_TRUE then
        FrameA.Voice
      else FrameA.Unrecognized
    else FrameA.Unrecognized
  else FrameA.Unrecognized

/-! ## Direction B (YSF) receive loop, lines 309-343 -/

/-- One datagram read by `m_ysfNetwork->read (buffer)` together with what the decoders
outside `src/` report on it: `fichValid`, `fi`, `dt` are the results of
`CYSFFICH::decode (buffer + 35)`, `getFI` and `getDT`; `headerOk`, `source`, `dest` those of
`CYSFPayload::processHeaderData (buffer + 35)`, `getSource` and `getDest`. -/
structure YSFRead where
  len : Nat
  buffer : Bytes
  fichValid : Bool
  fi : Nat
  dt : Nat
  headerOk : Bool
  source : Bytes
  dest : Bytes
deriving DecidableEq

/-- Body of the `while` loop at lines 309-343 for one datagram. -/
def ysfRxBody (c : Defines) (g : Gateway) (r : YSFRead) : Gateway × List ConvEvent :=
  if r.fichValid then
    if memcmpEq r.buffer (ascii "YSFD") 4 then
      if r.dt == c.YSF_DT_VD_MODE2 then
        if r.fi == c.YSF_FI_HEADER then
          if r.headerOk then
            ({ g with m_usrpcs := trim_callsign r.source }, [ConvEvent.putYSFHeader])
          else (g, [])
        else if r.fi == c.YSF_FI_TERMINATOR then (g, [ConvEvent.putYSFEOT])
        else if r.fi == c.YSF_FI_COMMUNICATIONS then
          (g, [ConvEvent.putYSF (r.buffer.drop 35)])
        else (g, [])
      else (g, [])
    else (g, [])
  else (g, [])

/-- One datagram of the YSF side: the loop body runs while `read` returns a positive
length. -/
def ysfRx (c : Defines) (g : Gateway) (r : YSFRead) : Gateway × List ConvEvent :=
  if r.len > 0 then ysfRxBody c g r else (g, [])

/-- The YSF receive loop over a sequence of datagrams. -/
def ysfRxAll (c : Defines) : Gateway → List YSFRead → Gateway × List ConvEvent
  | g, [] => (g, [])
  | g, r :: rs =>
    let s := ysfRx c g r
    let s2 := ysfRxAll c s.1 rs
    (s2.1, s.2 ++ s2.2)

/-- The sample enqueues expected from a list of datagrams: one `putUSRP`, carrying the 160
samples of the datagram, per Voice datagram, in order. -/
def voiceEnqueues (c : Defines) (ds : List Bytes) : List ConvEvent :=
  ds.filterMap (fun d =>
    if classify c d = FrameA.Voice then some (ConvEvent.putUSRP (decodePCM d)) else none)

/-- A 352-byte TextInfo datagram (constants of `Defines.sample`) carrying `cs` at byte 46. -/
def sampleTextInfo (cs : Bytes) : Bytes :=
  ascii "USRP" ++ List.replicate 16 0 ++ [2] ++ List.replicate 11 0 ++ [8]
    ++ List.replicate 13 0 ++ cs ++ List.replicate (306 - cs.length) 0

/-- A 352-byte Voice datagram (constants of `Defines.sample`) whose 320 sample bytes all
equal `b`. -/
def sampleVoice (b : Nat) : Bytes :=
  ascii "USRP" ++ List.replicate 11 0 ++ [1] ++ List.replicate 16 0 ++ List.replicate 320 b

/-- A 32-byte end-of-transmission datagram. -/
def sampleEOT : Bytes := ascii "USRP" ++ List.replicate 28 0

/-- A YSF datagram with marker `YSFD` on which the FICH decodes as valid with frame
indicator `fi` and data type V/D mode 2 (constants of `Defines.sample`). -/
def sampleYSFRead (fi : Nat) : YSFRead where
  len := 155
  buffer := ascii "YSFD" ++ List.replicate 151 0
  fichValid := true
  fi := fi
  dt := 2
  headerOk := true
  source := ascii "W1AW      "
  dest := ascii "ALL       "

/-! ## Direction B to A output tick (USRP datagram encoders), lines 345-398 -/

/-- Memory image of `htonl (cnt)` for a 32-bit `cnt`: four bytes, most significant first. -/
def htonlBytes (cnt : Nat) : Bytes :=
  [cnt / 2 ^ 24 % 256, cnt / 2 ^ 16 % 256, cnt / 2 ^ 8 % 256, cnt % 256]

/-- Byte stored by `m_usrpFrame[..] = pcm[..] & 0xff`. -/
def loByte (p : Int) : Nat := (p % 256).toNat

/-- Byte stored by `m_usrpFrame[..] = pcm[..] >> 8` (arithmetic shift, then truncation to
`uint8_t`). -/
def hiByte (p : Int) : Nat := ((p >>> (8 : Nat)) % 256).toNat

/-- One iteration of the loop at lines 389-392, for `i = 2 * k`. -/
def packStep (pcm : List Int) (f : Bytes) (k : Nat) : Bytes :=
  let i := 2 * k
  (f.set (32 + i) (loByte (pcm.getD (i / 2) 0))).set (32 + i + 1) (hiByte (pcm.getD (i / 2) 0))

/-- The loop at lines 389-392: `for (i = 0; i < 320; i += 2)`. -/
def packPCM (pcm : List Int) (frame : Bytes) : Bytes :=
  (List.range 160).foldl (packStep pcm) frame

/-- Buffer `m_usrpFrame` after the `TAG_USRP_HEADER` branch (lines 352-361). -/
def encodeUSRPHeader (c : Defines) (frame : Bytes) (usrp_cnt : Nat) (m_usrpcs : Bytes) : Bytes :=
  let f := memset frame 0 0 352
  let f := memcpy f 0 (ascii "USRP") 4
  let f := memcpy f 4 (htonlBytes usrp_cnt) 4
  let f := f.set 15 (c.USRP_KEYUP_FALSE % 256)
  let f := f.set 20 (c.USRP_TYPE_TEXT % 256)
  let f := f.set 32 (c.TLV_TAG_SET_INFO % 256)
  let f := f.set 33 ((13 + m_usrpcs.length) % 256)
  memcpy f 46 m_usrpcs m_usrpcs.length

/-- Buffer `m_usrpFrame` after the `TAG_USRP_DATA` branch (lines 383-392). -/
def encodeUSRPData (c : Defines) (frame : Bytes) (usrp_cnt : Nat) (pcm : List Int) : Bytes :=
  let f := memcpy frame 0 (ascii "USRP") 4
  let f := memset f 4 0 28
  let f := memcpy f 4 (htonlBytes usrp_cnt) 4
  let f := f.set 15 (c.USRP_KEYUP_TRUE % 256)
  packPCM pcm f

/-- Configuration values read through `m_conf` and the callsign of the YSF network object;
`CConf` and `CYSFNetwork` are outside `src/`. `ysfNetCallsign` stands for the bytes found
at `m_ysfNetwork->getCallsign ().c_str ()`. The last two fields describe the memory the
fixed-length copies of lines 410, 436, 437 and their siblings run into when a string is
shorter than the copy: `afterCallsign i` and `afterRadioID i` are the bytes at distance `i`
behind the terminating NUL of `m_usrpcs` and of the radio id string. -/
structure Conf where
  getFICHCallSign : Nat
  getFICHCallMode : Nat
  getFICHFrameTotal : Nat
  getFICHMessageRoute : Nat
  getFICHVOIP : Nat
  getFICHDataType : Nat
  getFICHSQLType : Nat
  getFICHSQLCode : Nat
  getYsfRadioID : Bytes
  getYsfDT1 : Bytes
  getYsfDT2 : Bytes
  ysfNetCallsign : Bytes
  afterCallsign : Nat → Nat
  afterRadioID : Nat → Nat

/-- Arguments of the `CYSFFICH` setters called before `fich.encode`. -/
structure FICHFields where
  FI : Nat
  CS : Nat
  CM : Nat
  BN : Nat
  BT : Nat
  FN : Nat
  FT : Nat
  Dev : Nat
  MR : Nat
  VoIP : Nat
  DT : Nat
  SQL : Nat
  SQ : Nat
deriving DecidableEq

/-- The call made on `CYSFPayload` for one outbound frame, with the bytes it is given:
`writeHeader` gets two 20-byte blocks, `writeVDMode2Data` a 10-byte block. -/
inductive PayloadCall where
  | writeHeader (csd1 csd2 : Bytes)
  | writeVDMode2Data (dt : Bytes)
deriving DecidableEq

/-- One frame passed to `m_ysfNetwork->write`: bytes 0..34 of `m_ysfFrame`, the FICH
fields set and the payload call. The bytes from offset 35 on are produced by `CYSFFICH`,
`CYSFPayload` and the Converter, all outside `src/`. -/
structure YSFFrameOut where
  head : Bytes
  fich : FICHFields
  payload : PayloadCall
deriving DecidableEq

/-- The `n` bytes a `memcpy (dst, s.c_str (), n)` copies: the bytes of `s`, its terminating
NUL and, when `s` has fewer than `n - 1` bytes, the bytes `after 0`, `after 1`, ... that lie
behind the terminator in memory. The result always has `n` bytes: the copy is performed
whatever the length of `s`. -/
def c_str_read (s : Bytes) (after : Nat → Nat) (n : Nat) : Bytes :=
  (s ++ [0] ++ (List.range n).map after).take n

/-- The value `fn = (ysf_cnt - 1U) % (m_conf.getFICHFrameTotal () + 1)` of line 492, in
unsigned 32-bit arithmetic: `ysf_cnt - 1U` wraps to `2 ^ 32 - 1` when the counter is 0. The
return type of the getter is declared outside `src/`; the sum `FT + 1` is reduced modulo
`2 ^ 32` as for an `unsigned int`, and a zero modulus (undefined in C) gives `none`. -/
def dataFN (ysf_cnt ft : Nat) : Option Nat :=
  let a := (ysf_cnt + 2 ^ 32 - 1) % 2 ^ 32
  let b := (ft + 1) % 2 ^ 32
  if b = 0 then none else some (a % b)

/-- The array `dt1` / `dt2` of lines 519-521 and 526-528: ten zero bytes overwritten by
the loop `for (i = 0; i < tag.size () && i < 10; i++) dt[i] = tag[i]`. -/
def fillTag (tag : Bytes) : Bytes :=
  (List.range (min tag.length 10)).foldl (fun a i => a.set i (byteAt tag i))
    (List.replicate 10 0)

/-- The 10-byte block handed to `writeVDMode2Data` by the `switch (fn)` of lines 501-534. -/
def vdData (conf : Conf) (m_usrpcs : Bytes) (fn : Nat) : Bytes :=
  match fn with
  | 0 =>
    let dch := memset (List.replicate 10 0) 0 42 (YSF_CALLSIGN_LENGTH / 2)
    let rid := c_str_read conf.getYsfRadioID conf.afterRadioID (YSF_CALLSIGN_LENGTH / 2)
    memcpy dch (YSF_CALLSIGN_LENGTH / 2) rid (YSF_CALLSIGN_LENGTH / 2)
  | 1 => c_str_read m_usrpcs conf.afterCallsign 10
  | 2 => c_str_read m_usrpcs conf.afterCallsign 10
  | 5 =>
    let dch := memset (List.replicate 10 0) 0 32 (YSF_CALLSIGN_LENGTH / 2)
    let rid := c_str_read conf.getYsfRadioID conf.afterRadioID (YSF_CALLSIGN_LENGTH / 2)
    memcpy dch (YSF_CALLSIGN_LENGTH / 2) rid (YSF_CALLSIGN_LENGTH / 2)
  | 6 => fillTag conf.getYsfDT1
  | 7 => fillTag conf.getYsfDT2
  | _ => ascii "          "

/-- Bytes 0..33 of `m_ysfFrame` as written by lines 408-411, 450-453 and 494-497. -/
def ysfHead (conf : Conf) (g : Gateway) : Bytes :=
  let f := memcpy g.m_ysfFrame 0 (ascii "YSFD") 4
  let f := memcpy f 4 conf.ysfNetCallsign YSF_CALLSIGN_LENGTH
  let src := c_str_read g.m_usrpcs conf.afterCallsign YSF_CALLSIGN_LENGTH
  let f := memcpy f 14 src YSF_CALLSIGN_LENGTH
  memcpy f 24 (ascii "ALL       ") YSF_CALLSIGN_LENGTH

/-- The FICH setters common to the three branches. -/
def fichOf (conf : Conf) (fi fn : Nat) : FICHFields where
  FI := fi
  CS := conf.getFICHCallSign
  CM := conf.getFICHCallMode
  BN := 0
  BT := 0
  FN := fn
  FT := conf.getFICHFrameTotal
  Dev := 0
  MR := conf.getFICHMessageRoute
  VoIP := conf.getFICHVOIP
  DT := conf.getFICHDataType
  SQL := conf.getFICHSQLType
  SQ := conf.getFICHSQLCode

/-- The `TAG_HEADER` branch, lines 405-447. -/
def ysfTxHeader (c : Defines) (conf : Conf) (g : Gateway) : Gateway × List YSFFrameOut :=
  let ysf_cnt := 0
  let f := ysfHead conf g
  let f := f.set 34 0
  let csd1 := memset (List.replicate 20 0) 0 42 YSF_CALLSIGN_LENGTH
  let csd1 := memset csd1 0 42 (YSF_CALLSIGN_LENGTH / 2)
  let rid := c_str_read conf.getYsfRadioID conf.afterRadioID (YSF_CALLSIGN_LENGTH / 2)
  let csd1 := memcpy csd1 (YSF_CALLSIGN_LENGTH / 2) rid (YSF_CALLSIGN_LENGTH / 2)
  let src := c_str_read g.m_usrpcs conf.afterCallsign YSF_CALLSIGN_LENGTH
  let csd1 := memcpy csd1 YSF_CALLSIGN_LENGTH src YSF_CALLSIGN_LENGTH
  let csd2 := memset (List.replicate 20 0) 0 32 (YSF_CALLSIGN_LENGTH + YSF_CALLSIGN_LENGTH)
  ({ g with m_ysfFrame := f, ysf_cnt := (ysf_cnt + 1) % 256 },
    [{ head := f.take 35, fich := fichOf conf c.YSF_FI_HEADER 0,
       payload := PayloadCall.writeHeader csd1 csd2 }])

/-- The `TAG_EOT` branch, lines 448-485. The array `csd1` is a local without initialiser;
its bytes 0..19 are all written before use. -/
def ysfTxEOT (c : Defines) (conf : Conf) (g : Gateway) : Gateway × List YSFFrameOut :=
  let f := ysfHead conf g
  let f := f.set 34 (g.ysf_cnt % 256)
  let csd1 := memset (List.replicate 20 0) 0 42 (YSF_CALLSIGN_LENGTH / 2)
  let rid := c_str_read conf.getYsfRadioID conf.afterRadioID (YSF_CALLSIGN_LENGTH / 2)
  let csd1 := memcpy csd1 (YSF_CALLSIGN_LENGTH / 2) rid (YSF_CALLSIGN_LENGTH / 2)
  let src := c_str_read g.m_usrpcs conf.afterCallsign YSF_CALLSIGN_LENGTH
  let csd1 := memcpy csd1 YSF_CALLSIGN_LENGTH src YSF_CALLSIGN_LENGTH
  let csd2 := memset (List.replicate 20 0) 0 32 (YSF_CALLSIGN_LENGTH + YSF_CALLSIGN_LENGTH)
  ({ g with m_ysfFrame := f },
    [{ head := f.take 35, fich := fichOf conf c.YSF_FI_TERMINATOR 0,
       payload := PayloadCall.writeHeader csd1 csd2 }])

/-- The `TAG_DATA` branch, lines 486-560, for a frame number `fn` already computed. -/
def ysfTxDataWith (c : Defines) (conf : Conf) (g : Gateway) (fn : Nat) :
    Gateway × List YSFFrameOut :=
  let f := ysfHead conf g
  let dch := vdData conf g.m_usrpcs fn
  let f := f.set 34 (((g.ysf_cnt &&& 127) <<< 1) % 256)
  ({ g with m_ysfFrame := f, ysf_cnt := (g.ysf_cnt + 1) % 256 },
    [{ head := f.take 35, fich := fichOf conf c.YSF_FI_COMMUNICATIONS fn,
       payload := PayloadCall.writeVDMode2Data dch }])

/-- The `TAG_DATA` branch, lines 486-560. It has no result only when the modulus of line
492 is zero. -/
def ysfTxData (c : Defines) (conf : Conf) (g : Gateway) :
    Option (Gateway × List YSFFrameOut) :=
  (dataFN g.ysf_cnt conf.getFICHFrameTotal).map (ysfTxDataWith c conf g)

/-- The YSF output tick (lines 401-561) once `ysfWatch` has elapsed: `ysfFrameType` is
what the single call `m_conv.getYSF (m_ysfFrame + 35U)` returned. The result is the new
state and the frames passed to `m_ysfNetwork->write`. -/
def ysfTx (c : Defines) (conf : Conf) (g : Gateway) (ysfFrameType : Nat) :
    Option (Gateway × List YSFFrameOut) :=
  if ysfFrameType == c.TAG_HEADER then some (ysfTxHeader c conf g)
  else if ysfFrameType == c.TAG_EOT then some (ysfTxEOT c conf g)
  else if ysfFrameType == c.TAG_DATA then ysfTxData c conf g
  else some (g, [])

/-- A sample configuration: frame total 7, radio id "H5000", two data tags, and byte
`0xEE` everywhere behind the terminators. -/
def Conf.sample : Conf where
  getFICHCallSign := 2
  getFICHCallMode := 0
  getFICHFrameTotal := 7
  getFICHMessageRoute := 0
  getFICHVOIP := 0
  getFICHDataType := 2
  getFICHSQLType := 0
  getFICHSQLCode := 0
  getYsfRadioID := ascii "H5000"
  getYsfDT1 := [1, 34, 97, 95, 43, 3, 17, 0, 0, 0]
  getYsfDT2 := [0, 0, 0, 0, 108, 32, 28, 32, 3, 8]
  ysfNetCallsign := ascii "GATEWAY   "
  afterCallsign := fun _ => 238
  afterRadioID := fun _ => 238

/-- The block the slot table of the specification assigns to a slot (section 4.2,
voice/data mode): slot 0 placeholder and radio id, slots 1-2 source callsign, slot 5 blanks
and radio id, slots 6-7 the two data tags cut to 10 bytes and zero-filled, else spaces. -/
def specSlotBlock (conf : Conf) (m_usrpcs : Bytes) (slot : Nat) : Bytes :=
  if slot = 0 then ascii "*****" ++ conf.getYsfRadioID.take 5
  else if slot = 1 ∨ slot = 2 then m_usrpcs.take 10
  else if slot = 5 then ascii "     " ++ conf.getYsfRadioID.take 5
  else if slot = 6 then
    conf.getYsfDT1.take 10 ++ List.replicate (10 - conf.getYsfDT1.length) 0
  else if slot = 7 then
    conf.getYsfDT2.take 10 ++ List.replicate (10 - conf.getYsfDT2.length) 0
  else List.replicate 10 32

/-! ## Network readers, `USRPNetwork.cpp` lines 60-78 and `M17Network.cpp` lines 109-130 -/

/-- Function `CUSRPNetwork::readData`: `sockLen` is the value returned by `m_socket.read`
(which has already stored the datagram in `data`), `srcMatch` the result of
`CUDPSocket::match (m_addr, addr)`. The `int` length is returned as `uint32_t`. -/
def CUSRPNetwork.readData (sockLen : Int) (srcMatch : Bool) : Nat :=
  if sockLen ≤ 0 then 0
  else if !srcMatch then 0
  else sockLen.toNat % 2 ^ 32

/-- Function `CM17Network::readData`, for a call that meets its two assertions
(`data != NULL`, `length > 0U`). -/
def CM17Network.readData (sockLen : Int) (srcMatch : Bool) : Nat :=
  if sockLen ≤ 0 then 0
  else if !srcMatch then 0
  else sockLen.toNat % 2 ^ 32

/-- One pass of the loop at line 272 with the reader spelled out: the socket stores the
datagram `d` in `m_usrpFrame` (at most 400 bytes), `readData` returns its length or 0, and
the body runs only for a non-zero length. -/
def usrpRxFrom (c : Defines) (g : Gateway) (d : Bytes) (srcMatch : Bool) :
    Gateway × List ConvEvent :=
  let r := recvInto g.m_usrpFrame 400 d
  let len := CUSRPNetwork.readData (r.2 : Int) srcMatch
  if len == 0 then ({ g with m_usrpFrame := r.1 }, [])
  else usrpRxBody c { g with m_usrpFrame := r.1 } len

/-- Modelled from the spec: `CYSFNetwork::read`, the reader of the YSF side (class outside
`src/`). Sections 6 and 7: the transport read yields the source address and the length,
zero when nothing is pending; `addressMatches` is used to reject a datagram from an
unexpected source, which is dropped. The engine therefore gets the length of a pending
datagram when its source matches the configured peer and 0 otherwise. -/
def CYSFNetwork.read (sockLen : Int) (srcMatch : Bool) : Nat :=
  if sockLen ≤ 0 then 0
  else if !srcMatch then 0
  else sockLen.toNat % 2 ^ 32

/-- One pass of the loop at line 309 with the reader spelled out: `sockLen` is the length
of the datagram the socket delivered, `srcMatch` whether its source is the configured
peer; `r` holds the buffer contents and what the decoders report on them. The body runs
while the reader returns a positive length. -/
def ysfRxFrom (c : Defines) (g : Gateway) (r : YSFRead) (sockLen : Int) (srcMatch : Bool) :
    Gateway × List ConvEvent :=
  ysfRx c g { r with len := CYSFNetwork.read sockLen srcMatch }

/-- The loop shape of line 272, `while ((len = readData (...))) body`, for one datagram
and any loop body over any engine state: the body runs only for a non-zero length. The
engine that calls `CM17Network::readData` is outside `src/`; its body is a parameter. -/
def readLoopPass {σ ε : Type} (len : Nat) (body : σ → Nat → σ × List ε) (s : σ) :
    σ × List ε :=
  if len == 0 then (s, []) else body s len

/-! ## One output tick per direction, lines 345-398 and 400-562 -/

/-- A sequence of YSF output ticks, one fetched frame type per tick, with the frames
written in order. -/
def ysfTxRun (c : Defines) (conf : Conf) : Gateway → List Nat →
    Option (Gateway × List YSFFrameOut)
  | g, [] => some (g, [])
  | g, t :: ts =>
    match ysfTx c conf g t with
    | none => none
    | some r =>
      match ysfTxRun c conf r.1 ts with
      | none => none
      | some r2 => some (r2.1, r.2 ++ r2.2)

/-- The FICH frame numbers of the frames written by one A to B transmission: a header
frame followed by `n` data frames. -/
def transmissionFNs (c : Defines) (conf : Conf) (g : Gateway) (n : Nat) : Option (List Nat) :=
  (ysfTxRun c conf g (c.TAG_HEADER :: List.replicate n c.TAG_DATA)).map
    (fun r => r.2.map (fun o => o.fich.FN))

end USRP2YSF

namespace USRP2YSF

/-! ## Lemmas on the receive buffer -/

theorem recvInto_take4 (buf d : Bytes) (h : 4 ≤ d.length) :
    (recvInto buf 400 d).1.take 4 = d.take 4 := by
  simp only [recvInto]
  rw [List.take_append_of_le_length (by simp; omega)]
  rw [List.take_take]
  congr 1
  omega

theorem recvInto_byteAt (buf d : Bytes) (i : Nat) (h : i < min d.length 400) :
    byteAt (recvInto buf 400 d).1 i = byteAt d i := by
  simp only [recvInto, byteAt, List.getD_eq_getElem?_getD]
  rw [List.getElem?_append_left (by simp; omega)]
  rw [List.getElem?_take_of_lt h]

theorem decodePCM_congr (a b : Bytes) (h : ∀ i, i < 352 → byteAt a i = byteAt b i) :
    decodePCM a = decodePCM b := by
  unfold decodePCM
  apply List.map_congr_left
  intro i hi
  rw [List.mem_range] at hi
  rw [h (32 + i * 2 + 1) (by omega), h (32 + i * 2) (by omega)]

theorem recvInto_len (buf d : Bytes) : (recvInto buf 400 d).2 = min d.length 400 := rfl

theorem ascii_USRP_take : (ascii "USRP").take 4 = ascii "USRP" := by decide

theorem usrpRx_eot (c : Defines) (g : Gateway) (d : Bytes) (hlen : d.length = 32)
    (hm : d.take 4 = ascii "USRP") :
    usrpRx c g d =
      ({ g with m_usrpFrame := (recvInto g.m_usrpFrame 400 d).1, m_usrpcs := [],
                m_usrpFrames := 0 }, [ConvEvent.putUSRPEOT]) := by
  have h4 := recvInto_take4 g.m_usrpFrame d (by omega)
  simp [usrpRx, usrpRxBody, memcmpEq, recvInto_len, hlen, h4, hm, ascii_USRP_take]

theorem usrpRx_text (c : Defines) (g : Gateway) (d : Bytes) (hlen : d.length = 352)
    (hm : d.take 4 = ascii "USRP")
    (ht : byteAt d 20 = c.USRP_TYPE_TEXT ∧ byteAt d 32 = c.TLV_TAG_SET_INFO) :
    usrpRx c g d =
      ({ g with m_usrpFrame := (recvInto g.m_usrpFrame 400 d).1,
                m_usrpcs := pad_callsign (cstrAt (recvInto g.m_usrpFrame 400 d).1 46) 10,
                m_usrpFrames := (g.m_usrpFrames + 1) % 2 ^ 32 },
        if g.m_usrpFrames = 0 then [ConvEvent.putUSRPHeader] else []) := by
  have h4 := recvInto_take4 g.m_usrpFrame d (by omega)
  have b20 := recvInto_byteAt g.m_usrpFrame d 20 (by omega)
  have b32 := recvInto_byteAt g.m_usrpFrame d 32 (by omega)
  simp [usrpRx, usrpRxBody, memcmpEq, recvInto_len, hlen, h4, hm, ascii_USRP_take, b20, b32,
    ht.1, ht.2]

theorem usrpRx_voice (c : Defines) (g : Gateway) (d : Bytes) (hlen : d.length = 352)
    (hm : d.take 4 = ascii "USRP")
    (ht : ¬ (byteAt d 20 = c.USRP_TYPE_TEXT ∧ byteAt d 32 = c.TLV_TAG_SET_INFO))
    (hv : byteAt d 20 = c.USRP_TYPE_VOICE ∧ byteAt d 15 = c.USRP_KEYUP_TRUE) :
    usrpRx c g d =
      ({ g with m_usrpFrame := (recvInto g.m_usrpFrame 400 d).1,
                m_usrpFrames := (g.m_usrpFrames + 1) % 2 ^ 32 },
        (if g.m_usrpFrames = 0 then [ConvEvent.putUSRPHeader] else [])
          ++ [ConvEvent.putUSRP (decodePCM d)]) := by
  have h4 := recvInto_take4 g.m_usrpFrame d (by omega)
  have b20 := recvInto_byteAt g.m_usrpFrame d 20 (by omega)
  have b32 := recvInto_byteAt g.m_usrpFrame d 32 (by omega)
  have b15 := recvInto_byteAt g.m_usrpFrame d 15 (by omega)
  have hp : decodePCM (recvInto g.m_usrpFrame 400 d).1 = decodePCM d :=
    decodePCM_congr _ _ (fun i hi => recvInto_byteAt g.m_usrpFrame d i (by omega))
  have ht2 : ¬ (c.USRP_TYPE_VOICE = c.USRP_TYPE_TEXT ∧ byteAt d 32 = c.TLV_TAG_SET_INFO) := by
    rw [← hv.1]; exact ht
  simp only [not_and] at ht2
  simp [usrpRx, usrpRxBody, memcmpEq, recvInto_len, hlen, h4, hm, ascii_USRP_take, b20, b32,
    b15, hv.1, hv.2, hp]
  intro h1 h2
  exact absurd h2 (ht2 h1)

theorem classify_eot (c : Defines) (d : Bytes) (h : classify c d = FrameA.EndOfTransmission) :
    d.length = 32 ∧ d.take 4 = ascii "USRP" := by
  unfold classify at h
  split_ifs at h
  simp_all

theorem classify_text (c : Defines) (d : Bytes) (h : classify c d = FrameA.TextInfo) :
    d.length = 352 ∧ d.take 4 = ascii "USRP"
      ∧ (byteAt d 20 = c.USRP_TYPE_TEXT ∧ byteAt d 32 = c.TLV_TAG_SET_INFO) := by
  unfold classify at h
  split_ifs at h
  simp_all

theorem classify_voice (c : Defines) (d : Bytes) (h : classify c d = FrameA.Voice) :
    d.length = 352 ∧ d.take 4 = ascii "USRP"
      ∧ ¬ (byteAt d 20 = c.USRP_TYPE_TEXT ∧ byteAt d 32 = c.TLV_TAG_SET_INFO)
      ∧ (byteAt d 20 = c.USRP_TYPE_VOICE ∧ byteAt d 15 = c.USRP_KEYUP_TRUE) := by
  unfold classify at h
  split_ifs at h
  simp_all

theorem usrpRxAll_append (c : Defines) (g : Gateway) (xs ys : List Bytes) :
    usrpRxAll c g (xs ++ ys) =
      ((usrpRxAll c (usrpRxAll c g xs).1 ys).1,
        (usrpRxAll c g xs).2 ++ (usrpRxAll c (usrpRxAll c g xs).1 ys).2) := by
  induction xs generalizing g with
  | nil => simp [usrpRxAll]
  | cons x xs ih => simp [usrpRxAll, ih]

/-- One Voice or TextInfo datagram received with a counter `n`: the counter becomes `n + 1`
modulo `2 ^ 32`, and the Converter gets a header only when `n = 0` and the samples only for
Voice. -/
theorem usrpRx_call_frame (c : Defines) (g : Gateway) (d : Bytes)
    (hd : classify c d = FrameA.Voice ∨ classify c d = FrameA.TextInfo) :
    (usrpRx c g d).1.m_usrpFrames = (g.m_usrpFrames + 1) % 2 ^ 32 ∧
    (usrpRx c g d).2 =
      (if g.m_usrpFrames = 0 then [ConvEvent.putUSRPHeader] else []) ++ voiceEnqueues c [d] := by
  rcases hd with hd | hd
  · obtain ⟨h1, h2, h3, h4⟩ := classify_voice c d hd
    rw [usrpRx_voice c g d h1 h2 h3 h4]
    simp [voiceEnqueues, hd]
  · obtain ⟨h1, h2, h3⟩ := classify_text c d hd
    rw [usrpRx_text c g d h1 h2 h3]
    simp [voiceEnqueues, hd]

theorem voiceEnqueues_cons (c : Defines) (d : Bytes) (ds : List Bytes) :
    voiceEnqueues c (d :: ds) = voiceEnqueues c [d] ++ voiceEnqueues c ds := by
  unfold voiceEnqueues
  by_cases h : classify c d = FrameA.Voice <;> simp [List.filterMap_cons, h]

/-- Frames received while the counter is positive and does not wrap: no header. -/
theorem usrpRxAll_in_call (c : Defines) (rest : List Bytes) :
    ∀ (g : Gateway), 0 < g.m_usrpFrames → g.m_usrpFrames + rest.length < 2 ^ 32 →
      (∀ d ∈ rest, classify c d = FrameA.Voice ∨ classify c d = FrameA.TextInfo) →
      (usrpRxAll c g rest).2 = voiceEnqueues c rest := by
  induction rest with
  | nil => intro g _ _ _; simp [usrpRxAll, voiceEnqueues]
  | cons d ds ih =>
    intro g hpos hlt hall
    obtain ⟨hc, he⟩ := usrpRx_call_frame c g d (hall d (List.mem_cons_self _ _))
    simp only [List.length_cons] at hlt
    have hne : g.m_usrpFrames ≠ 0 := by omega
    have hmod : (g.m_usrpFrames + 1) % 2 ^ 32 = g.m_usrpFrames + 1 :=
      Nat.mod_eq_of_lt (by omega)
    have ih2 := ih (usrpRx c g d).1 (by rw [hc, hmod]; omega) (by rw [hc, hmod]; omega)
      (fun x hx => hall x (List.mem_cons_of_mem _ hx))
    simp only [usrpRxAll, ih2, he, if_neg hne, List.nil_append]
    exact (voiceEnqueues_cons c d ds).symm

/-! ## Direction A receive loop: claims -/

/-- C1. Starting with the frame counter at 0, a transmission made of a first Voice or
TextInfo datagram, then further Voice and TextInfo datagrams (fewer than `2 ^ 32` in
total), then one EndOfTransmission datagram makes the receive loop call the Converter with
exactly: one `putUSRPHeader`, then one `putUSRP` per Voice datagram in arrival order (with
that datagram's samples), then one `putUSRPEOT`; no TextInfo after the first frame emits a
header. -/
theorem usrp_transmission_trace (c : Defines) (g : Gateway) (first : Bytes)
    (rest : List Bytes) (eot : Bytes)
    (h0 : g.m_usrpFrames = 0)
    (hfirst : classify c first = FrameA.Voice ∨ classify c first = FrameA.TextInfo)
    (hrest : ∀ d ∈ rest, classify c d = FrameA.Voice ∨ classify c d = FrameA.TextInfo)
    (hcount : rest.length + 1 < 2 ^ 32)
    (heot : classify c eot = FrameA.EndOfTransmission) :
    (usrpRxAll c g (first :: (rest ++ [eot]))).2 =
      ConvEvent.putUSRPHeader :: (voiceEnqueues c (first :: rest) ++ [ConvEvent.putUSRPEOT]) := by
  obtain ⟨hc, he⟩ := usrpRx_call_frame c g first hfirst
  have hc1 : (usrpRx c g first).1.m_usrpFrames = 1 := by rw [hc, h0]; rfl
  have hin := usrpRxAll_in_call c rest (usrpRx c g first).1 (by omega) (by omega) hrest
  obtain ⟨e1, e2⟩ := classify_eot c eot heot
  simp only [usrpRxAll, usrpRxAll_append, hin, he, h0, if_true, usrpRx_eot c _ eot e1 e2]
  rw [voiceEnqueues_cons c first rest]
  simp

/-- C1, concrete run: TextInfo "W1AW", five Voice datagrams, EndOfTransmission give a
header, five sample enqueues and an end, in that order. -/
theorem usrp_transmission_trace_witness :
    (usrpRxAll Defines.sample Gateway.init
      (sampleTextInfo (ascii "W1AW") :: (List.replicate 5 (sampleVoice 1) ++ [sampleEOT]))).2 =
      ConvEvent.putUSRPHeader ::
        (List.replicate 5 (ConvEvent.putUSRP (List.replicate 160 257))
          ++ [ConvEvent.putUSRPEOT]) := by
  rw [usrp_transmission_trace Defines.sample Gateway.init (sampleTextInfo (ascii "W1AW"))
    (List.replicate 5 (sampleVoice 1)) sampleEOT rfl (by decide) (by decide) (by decide)
    (by decide)]
  decide

/-- C4. A 32-byte datagram whose first four bytes are "USRP" is handled as an end of
transmission whatever its other bytes are: the only Converter call is one `putUSRPEOT`,
the stored callsign is cleared and the frame counter is 0 afterwards. -/
theorem usrp_eot_any_trailing_bytes (c : Defines) (g : Gateway) (d : Bytes)
    (hlen : d.length = 32) (hm : d.take 4 = ascii "USRP") :
    (usrpRx c g d).2 = [ConvEvent.putUSRPEOT] ∧ (usrpRx c g d).1.m_usrpcs = []
      ∧ (usrpRx c g d).1.m_usrpFrames = 0 := by
  rw [usrpRx_eot c g d hlen hm]
  exact ⟨rfl, rfl, rfl⟩

/-- C4, concrete run: marker followed by 28 bytes `0xFF`, received in mid-call. -/
theorem usrp_eot_any_trailing_bytes_witness :
    (usrpRx Defines.sample { Gateway.init with m_usrpcs := ascii "W1AW      ", m_usrpFrames := 6 }
        (ascii "USRP" ++ List.replicate 28 255)).2 = [ConvEvent.putUSRPEOT]
      ∧ (usrpRx Defines.sample
          { Gateway.init with m_usrpcs := ascii "W1AW      ", m_usrpFrames := 6 }
          (ascii "USRP" ++ List.replicate 28 255)).1.m_usrpcs = []
      ∧ (usrpRx Defines.sample
          { Gateway.init with m_usrpcs := ascii "W1AW      ", m_usrpFrames := 6 }
          (ascii "USRP" ++ List.replicate 28 255)).1.m_usrpFrames = 0 :=
  usrp_eot_any_trailing_bytes Defines.sample _ (ascii "USRP" ++ List.replicate 28 255)
    (by decide) (by decide)

/-- C5. A datagram whose first four bytes are not "USRP", or which bears the marker but has
none of the three recognised shapes (length 32; length 352 with type TEXT and the set-info
tag at byte 32; length 352 with type VOICE and keyup true at byte 15), causes no Converter
call and leaves the stored callsign and the frame counter as they were. -/
theorem usrp_unrecognized_dropped (c : Defines) (g : Gateway) (d : Bytes)
    (h : d.take 4 ≠ ascii "USRP" ∨
      ¬ (d.length = 32
          ∨ (d.length = 352 ∧ byteAt d 20 = c.USRP_TYPE_TEXT ∧ byteAt d 32 = c.TLV_TAG_SET_INFO)
          ∨ (d.length = 352 ∧ byteAt d 20 = c.USRP_TYPE_VOICE
              ∧ byteAt d 15 = c.USRP_KEYUP_TRUE))) :
    (usrpRx c g d).2 = [] ∧ (usrpRx c g d).1.m_usrpcs = g.m_usrpcs
      ∧ (usrpRx c g d).1.m_usrpFrames = g.m_usrpFrames := by
  by_cases h0 : d.length = 0
  · simp [usrpRx, recvInto_len, h0]
  by_cases h32 : d.length = 32
  · have h4 := recvInto_take4 g.m_usrpFrame d (by omega)
    have hm : d.take 4 ≠ ascii "USRP" := by
      rcases h with h | h
      · exact h
      · exact absurd (Or.inl h32) h
    simp [usrpRx, usrpRxBody, memcmpEq, recvInto_len, h32, h4, hm, ascii_USRP_take]
  by_cases h352 : d.length = 352
  · have h4 := recvInto_take4 g.m_usrpFrame d (by omega)
    have b20 := recvInto_byteAt g.m_usrpFrame d 20 (by omega)
    have b32 := recvInto_byteAt g.m_usrpFrame d 32 (by omega)
    have b15 := recvInto_byteAt g.m_usrpFrame d 15 (by omega)
    by_cases hm : d.take 4 = ascii "USRP"
    · have h' : ¬ (byteAt d 20 = c.USRP_TYPE_TEXT ∧ byteAt d 32 = c.TLV_TAG_SET_INFO) ∧
          ¬ (byteAt d 20 = c.USRP_TYPE_VOICE ∧ byteAt d 15 = c.USRP_KEYUP_TRUE) := by
        rcases h with h | h
        · exact absurd hm h
        · constructor
          · intro hc; exact h (Or.inr (Or.inl ⟨h352, hc⟩))
          · intro hc; exact h (Or.inr (Or.inr ⟨h352, hc⟩))
      obtain ⟨ht, hv⟩ := h'
      simp only [not_and] at ht hv
      simp [usrpRx, usrpRxBody, memcmpEq, recvInto_len, h352, h4, hm, ascii_USRP_take, b20,
        b32, b15]
      split_ifs <;> simp_all
    · simp [usrpRx, usrpRxBody, memcmpEq, recvInto_len, h352, h4, hm, ascii_USRP_take]
  · have hl : min d.length 400 ≠ 32 ∧ min d.length 400 ≠ 352 ∧ min d.length 400 ≠ 0 := by
      omega
    simp [usrpRx, usrpRxBody, recvInto_len, hl.1, hl.2.1, hl.2.2]

/-- C5, concrete run: a 352-byte datagram with the marker and type byte 1 (neither TEXT
nor VOICE) received in mid-call. -/
theorem usrp_unrecognized_dropped_witness :
    (usrpRx Defines.sample { Gateway.init with m_usrpcs := ascii "W1AW      ", m_usrpFrames := 6 }
        (ascii "USRP" ++ List.replicate 16 0 ++ [1] ++ List.replicate 331 0)).2 = []
      ∧ (usrpRx Defines.sample
          { Gateway.init with m_usrpcs := ascii "W1AW      ", m_usrpFrames := 6 }
          (ascii "USRP" ++ List.replicate 16 0 ++ [1] ++ List.replicate 331 0)).1.m_usrpcs
          = ascii "W1AW      "
      ∧ (usrpRx Defines.sample
          { Gateway.init with m_usrpcs := ascii "W1AW      ", m_usrpFrames := 6 }
          (ascii "USRP" ++ List.replicate 16 0 ++ [1] ++ List.replicate 331 0)).1.m_usrpFrames
          = 6 :=
  usrp_unrecognized_dropped Defines.sample _
    (ascii "USRP" ++ List.replicate 16 0 ++ [1] ++ List.replicate 331 0)
    (Or.inr (by decide))

/-! ## Direction B receive loop: claims -/

theorem ysfRxAll_append (c : Defines) (g : Gateway) (xs ys : List YSFRead) :
    ysfRxAll c g (xs ++ ys) =
      ((ysfRxAll c (ysfRxAll c g xs).1 ys).1,
        (ysfRxAll c g xs).2 ++ (ysfRxAll c (ysfRxAll c g xs).1 ys).2) := by
  induction xs generalizing g with
  | nil => simp [ysfRxAll]
  | cons x xs ih => simp [ysfRxAll, ih]

/-- C9. A YSF datagram on which `CYSFFICH::decode` returns false changes nothing: no
Converter call is made and the whole state (stored callsign included) is as before,
whatever the datagram holds. -/
theorem ysf_invalid_fich_discarded (c : Defines) (g : Gateway) (r : YSFRead)
    (h : r.fichValid = false) :
    ysfRx c g r = (g, []) := by
  unfold ysfRx ysfRxBody
  simp [h]

/-- C9, concrete run: a Header datagram with marker and V/D mode 2 whose FICH fails to
decode, received right after start-up. -/
theorem ysf_invalid_fich_discarded_witness :
    ysfRx Defines.sample Gateway.init { sampleYSFRead 0 with fichValid := false }
      = (Gateway.init, []) :=
  ysf_invalid_fich_discarded Defines.sample Gateway.init
    { sampleYSFRead 0 with fichValid := false } rfl

/-- C10, as stated, fails: right after start-up, with no Header ever received, a valid
Communications datagram is passed to the Converter (`putYSF`) and a valid Terminator
datagram makes the loop call `putYSFEOT`. -/
theorem ysf_idle_not_ignored :
    (ysfRxAll Defines.sample Gateway.init [sampleYSFRead 1]).2
        = [ConvEvent.putYSF (List.replicate 120 0)]
      ∧ (ysfRxAll Defines.sample Gateway.init [sampleYSFRead 2]).2 = [ConvEvent.putYSFEOT]
      ∧ ¬ ((ysfRxAll Defines.sample Gateway.init [sampleYSFRead 1]).2 = []
            ∧ (ysfRxAll Defines.sample Gateway.init [sampleYSFRead 2]).2 = []) := by
  decide

/-- C10, amended. The YSF receive loop keeps no call state: after any sequence `hist` of
earlier datagrams (with or without a Header, from any state), a datagram of positive
length with marker "YSFD", a valid FICH and data type V/D mode 2 is dispatched on its frame
indicator alone. Communications adds exactly one `putYSF` with the bytes from offset 35,
Terminator adds exactly one `putYSFEOT`, and neither changes the state. (The frame
indicator constants are distinct.) -/
theorem ysf_dispatch_ignores_history (c : Defines) (g : Gateway) (hist : List YSFRead)
    (r : YSFRead)
    (hconst : c.YSF_FI_COMMUNICATIONS ≠ c.YSF_FI_HEADER
      ∧ c.YSF_FI_COMMUNICATIONS ≠ c.YSF_FI_TERMINATOR
      ∧ c.YSF_FI_TERMINATOR ≠ c.YSF_FI_HEADER)
    (hlen : 0 < r.len) (hvalid : r.fichValid = true)
    (hm : r.buffer.take 4 = ascii "YSFD") (hdt : r.dt = c.YSF_DT_VD_MODE2) :
    (r.fi = c.YSF_FI_COMMUNICATIONS →
        ysfRxAll c g (hist ++ [r])
          = ((ysfRxAll c g hist).1,
              (ysfRxAll c g hist).2 ++ [ConvEvent.putYSF (r.buffer.drop 35)]))
      ∧ (r.fi = c.YSF_FI_TERMINATOR →
        ysfRxAll c g (hist ++ [r])
          = ((ysfRxAll c g hist).1, (ysfRxAll c g hist).2 ++ [ConvEvent.putYSFEOT])) := by
  obtain ⟨h1, h2, h3⟩ := hconst
  have hmk : memcmpEq r.buffer (ascii "YSFD") 4 = true := by
    simp only [memcmpEq, hm]; decide
  rw [ysfRxAll_append]
  refine ⟨?_, ?_⟩
  · intro hfi
    simp [ysfRxAll, ysfRx, ysfRxBody, hlen, hvalid, hmk, hdt, hfi, h1, h2]
  · intro hfi
    simp [ysfRxAll, ysfRx, ysfRxBody, hlen, hvalid, hmk, hdt, hfi, h3]

/-- C10 amended, concrete run: a Communications datagram and a Terminator datagram
received at start-up, before any Header. -/
theorem ysf_dispatch_ignores_history_witness :
    ysfRxAll Defines.sample Gateway.init ([] ++ [sampleYSFRead 1])
        = (Gateway.init, [] ++ [ConvEvent.putYSF ((sampleYSFRead 1).buffer.drop 35)])
      ∧ ysfRxAll Defines.sample Gateway.init ([sampleYSFRead 1] ++ [sampleYSFRead 2])
        = (Gateway.init,
            [ConvEvent.putYSF ((sampleYSFRead 1).buffer.drop 35)] ++ [ConvEvent.putYSFEOT]) :=
  ⟨(ysf_dispatch_ignores_history Defines.sample Gateway.init [] (sampleYSFRead 1)
      (by decide) (by decide) rfl (by decide) rfl).1 rfl,
   (ysf_dispatch_ignores_history Defines.sample Gateway.init [sampleYSFRead 1]
      (sampleYSFRead 2) (by decide) (by decide) rfl (by decide) rfl).2 rfl⟩

/-! ## Callsign helpers: claims -/

theorem acceptable_iff (b : Nat) : ACCEPTABLECHARS.contains b = isAlnumUpper b := by
  have hA : ACCEPTABLECHARS = [48, 49, 50, 51, 52, 53, 54, 55, 56, 57, 65, 66, 67, 68, 69, 70,
      71, 72, 73, 74, 75, 76, 77, 78, 79, 80, 81, 82, 83, 84, 85, 86, 87, 88, 89, 90] := by
    decide
  rw [Bool.eq_iff_iff, hA]
  simp only [List.contains_eq_any_beq, List.any_cons, List.any_nil, Bool.or_false,
    Bool.or_eq_true, beq_iff_eq, isAlnumUpper, Bool.and_eq_true, decide_eq_true_eq]
  omega

theorem find_first_not_of_from_eq (s : Bytes) :
    ∀ i, find_first_not_of_from ACCEPTABLECHARS s i =
      if (s.takeWhile isAlnumUpper).length < s.length
      then i + (s.takeWhile isAlnumUpper).length else npos := by
  induction s with
  | nil => intro i; simp [find_first_not_of_from]
  | cons x xs ih =>
    intro i
    by_cases hx : isAlnumUpper x = true
    · simp only [find_first_not_of_from, acceptable_iff, hx, if_true, ih (i + 1),
        List.takeWhile_cons, List.length_cons]
      split_ifs <;> omega
    · have hc : ACCEPTABLECHARS.contains x = false := by
        rw [acceptable_iff]; simpa using hx
      simp only [find_first_not_of_from, hc]
      simp [hx, List.takeWhile_cons]

theorem take_takeWhile_length (p : Nat → Bool) (s : Bytes) :
    s.take (s.takeWhile p).length = s.takeWhile p := by
  induction s with
  | nil => simp
  | cons x xs ih =>
    by_cases hx : p x = true
    · simp [List.takeWhile_cons, hx, ih]
    · simp [List.takeWhile_cons, hx]

theorem trim_callsign_eq (s : Bytes) :
    trim_callsign s = (s.takeWhile isAlnumUpper).take 8 := by
  have hk := take_takeWhile_length isAlnumUpper s
  have hle : (s.takeWhile isAlnumUpper).length ≤ s.length := by
    rw [← hk]; simp
  simp only [trim_callsign, find_first_not_of, substr0, find_first_not_of_from_eq, Nat.zero_add]
  generalize (s.takeWhile isAlnumUpper).length = k at hk hle ⊢
  rw [← hk, List.take_take, List.take_eq_take]
  simp only [npos]
  split_ifs <;> omega

/-- C6. For every string `s`, `trim_callsign s` is the longest prefix of `s` made only of
characters in `0-9` and `A-Z`, cut to at most 8 characters; `trim_callsign "AC8ZD/DAVE"` is
`"AC8ZD"`; and for an all-alphanumeric `s` longer than 8 characters the result is the first
8 characters of `s`. -/
theorem trim_callsign_spec (s : Bytes) :
    trim_callsign s = (s.takeWhile isAlnumUpper).take 8
      ∧ trim_callsign (ascii "AC8ZD/DAVE") = ascii "AC8ZD"
      ∧ ((∀ b ∈ s, isAlnumUpper b = true) → 8 < s.length → trim_callsign s = s.take 8) := by
  refine ⟨trim_callsign_eq s, by decide, ?_⟩
  intro hall _
  rw [trim_callsign_eq, List.takeWhile_eq_self_iff.mpr hall]

/-- C6, concrete run: a ten-letter all-alphanumeric string is cut to its first 8. -/
theorem trim_callsign_spec_witness :
    trim_callsign (ascii "ABCDEFGH12") = (ascii "ABCDEFGH12").take 8 :=
  (trim_callsign_spec (ascii "ABCDEFGH12")).2.2 (by decide) (by decide)

/-- C7. For every string `s` and target length `n`, `pad_callsign (s, n)` leaves `s`
followed by `n - |s|` spaces when `|s| < n` and leaves `s` unchanged when `|s| >= n`;
`pad_callsign ("AC8ZD", 10)` is `"AC8ZD     "`; padding twice equals padding once. -/
theorem pad_callsign_spec (s : Bytes) (n : Nat) :
    (s.length < n → pad_callsign s n = s ++ List.replicate (n - s.length) 32)
      ∧ (n ≤ s.length → pad_callsign s n = s)
      ∧ pad_callsign (ascii "AC8ZD") 10 = ascii "AC8ZD     "
      ∧ pad_callsign (pad_callsign s n) n = pad_callsign s n := by
  refine ⟨?_, ?_, by decide, ?_⟩
  · intro h
    simp [pad_callsign, h]
  · intro h
    have h2 : ¬ (n > s.length) := by omega
    simp [pad_callsign, h2]
  · unfold pad_callsign
    by_cases h : n > s.length
    · have h3 : ¬ (n > (s ++ List.replicate (n - s.length) 32).length) := by
        simp only [List.length_append, List.length_replicate]; omega
      simp only [h, if_true, h3, if_false]
    · simp only [h, if_false]

/-- C7, concrete run: a 4-byte callsign padded to 10, an 11-byte one left alone. -/
theorem pad_callsign_spec_witness :
    pad_callsign (ascii "W1AW") 10 = ascii "W1AW" ++ List.replicate (10 - 4) 32
      ∧ pad_callsign (ascii "AC8ZD/DAVE1") 10 = ascii "AC8ZD/DAVE1" :=
  ⟨(pad_callsign_spec (ascii "W1AW") 10).1 (by decide),
   (pad_callsign_spec (ascii "AC8ZD/DAVE1") 10).2.1 (by decide)⟩

/-! ## Sample packing -/

theorem foldl_packStep_length (pcm : List Int) (n : Nat) (frame : Bytes) :
    ((List.range n).foldl (packStep pcm) frame).length = frame.length := by
  induction n with
  | zero => simp
  | succ n ih => simp [List.range_succ, List.foldl_append, packStep, ih]

/-- Bytes of the buffer after `n` iterations of the packing loop. -/
theorem foldl_packStep_getElem? (pcm : List Int) (frame : Bytes) (n j : Nat) :
    ((List.range n).foldl (packStep pcm) frame)[j]? =
      if 32 ≤ j ∧ j < 32 + 2 * n ∧ j < frame.length then
        some (if (j - 32) % 2 = 0 then loByte (pcm.getD ((j - 32) / 2) 0)
              else hiByte (pcm.getD ((j - 32) / 2) 0))
      else frame[j]? := by
  induction n with
  | zero =>
    have : ¬ (32 ≤ j ∧ j < 32 + 2 * 0 ∧ j < frame.length) := by omega
    simp [this]
  | succ n ih =>
    have hl := foldl_packStep_length pcm n frame
    simp only [List.range_succ, List.foldl_append, List.foldl_cons, List.foldl_nil]
    simp only [packStep, List.getElem?_set, List.length_set, hl, ih,
      Nat.mul_div_cancel_left n (by decide : 0 < 2)]
    by_cases h1 : 32 + 2 * n + 1 = j
    · have e1 : (j - 32) % 2 ≠ 0 := by omega
      have e2 : (j - 32) / 2 = n := by omega
      simp only [if_pos h1, e1, e2, if_false]
      by_cases hj : 32 + 2 * n + 1 < frame.length
      · have : 32 ≤ j ∧ j < 32 + 2 * (n + 1) ∧ j < frame.length := by omega
        simp only [if_pos hj, if_pos this]
      · have : ¬ (32 ≤ j ∧ j < 32 + 2 * (n + 1) ∧ j < frame.length) := by omega
        have h3 : frame.length ≤ j := by omega
        simp only [if_neg hj, if_neg this, List.getElem?_eq_none h3]
    · by_cases h2 : 32 + 2 * n = j
      · have e1 : (j - 32) % 2 = 0 := by omega
        have e2 : (j - 32) / 2 = n := by omega
        simp only [if_neg h1, if_pos h2, e1, e2, if_true]
        by_cases hj : 32 + 2 * n < frame.length
        · have : 32 ≤ j ∧ j < 32 + 2 * (n + 1) ∧ j < frame.length := by omega
          simp only [if_pos hj, if_pos this]
        · have : ¬ (32 ≤ j ∧ j < 32 + 2 * (n + 1) ∧ j < frame.length) := by omega
          have h3 : frame.length ≤ j := by omega
          simp only [if_neg hj, if_neg this, List.getElem?_eq_none h3]
      · simp only [if_neg h1, if_neg h2]
        by_cases hc : 32 ≤ j ∧ j < 32 + 2 * n ∧ j < frame.length
        · have : 32 ≤ j ∧ j < 32 + 2 * (n + 1) ∧ j < frame.length := by omega
          simp only [if_pos hc, if_pos this]
        · have : ¬ (32 ≤ j ∧ j < 32 + 2 * (n + 1) ∧ j < frame.length) := by omega
          simp only [if_neg hc, if_neg this]

theorem shl8_or (b0 b1 : Nat) (h0 : b0 < 256) : (b1 <<< 8) ||| b0 = 256 * b1 + b0 := by
  have h := Nat.mul_add_lt_is_or (i := 8) (b := b0) (by simpa using h0) b1
  rw [Nat.shiftLeft_eq, Nat.mul_comm]
  simpa using h.symm

theorem toInt16_spec (v : Int) :
    -32768 ≤ toInt16 v ∧ toInt16 v ≤ 32767 ∧ toInt16 v % 65536 = v % 65536 := by
  unfold toInt16
  simp only
  split_ifs <;> omega

theorem loByte_cast (p : Int) : ((loByte p : Nat) : Int) = p % 256 := by
  unfold loByte
  rw [Int.toNat_of_nonneg (by omega)]

theorem hiByte_cast (p : Int) : ((hiByte p : Nat) : Int) = (p / 256) % 256 := by
  unfold hiByte
  rw [Int.shiftRight_eq_div_pow, Int.toNat_of_nonneg (by omega)]
  norm_num

/-- Two bytes, read as a sample and written back, are unchanged. -/
theorem bytes_sample_bytes (b0 b1 : Nat) (h0 : b0 < 256) (h1 : b1 < 256) :
    loByte (toInt16 (((b1 <<< 8) ||| b0 : Nat) : Int)) = b0 ∧
    hiByte (toInt16 (((b1 <<< 8) ||| b0 : Nat) : Int)) = b1 := by
  rw [shl8_or b0 b1 h0]
  obtain ⟨t1, t2, t3⟩ := toInt16_spec ((256 * b1 + b0 : Nat) : Int)
  have hl := loByte_cast (toInt16 ((256 * b1 + b0 : Nat) : Int))
  have hh := hiByte_cast (toInt16 ((256 * b1 + b0 : Nat) : Int))
  generalize toInt16 ((256 * b1 + b0 : Nat) : Int) = t at *
  push_cast at t3
  constructor <;> omega

/-- A 16-bit sample, written as two bytes and read back, is unchanged. -/
theorem sample_bytes_sample (p : Int) (hl : -32768 ≤ p) (hu : p ≤ 32767) :
    toInt16 (((hiByte p <<< 8) ||| loByte p : Nat) : Int) = p := by
  have h0 := loByte_cast p
  have h1 := hiByte_cast p
  have h2 : loByte p < 256 := by omega
  rw [shl8_or _ _ h2]
  obtain ⟨t1, t2, t3⟩ := toInt16_spec ((256 * hiByte p + loByte p : Nat) : Int)
  generalize toInt16 ((256 * hiByte p + loByte p : Nat) : Int) = t at *
  push_cast at t3
  omega

theorem memcpy_length (buf src : Bytes) (off n : Nat) (h1 : off + n ≤ buf.length)
    (h2 : n ≤ src.length) : (memcpy buf off src n).length = buf.length := by
  simp only [memcpy, List.length_append, List.length_take, List.length_drop]
  omega

theorem memset_length (buf : Bytes) (off v n : Nat) (h1 : off + n ≤ buf.length) :
    (memset buf off v n).length = buf.length := by
  simp only [memset, List.length_append, List.length_take, List.length_drop,
    List.length_replicate]
  omega

/-- Sample bytes of the buffer built by the `TAG_USRP_DATA` branch. -/
theorem encodeUSRPData_getElem? (c : Defines) (frame : Bytes) (cnt : Nat) (pcm : List Int)
    (hf : 352 ≤ frame.length) (j : Nat) (h1 : 32 ≤ j) (h2 : j < 352) :
    (encodeUSRPData c frame cnt pcm)[j]? =
      some (if (j - 32) % 2 = 0 then loByte (pcm.getD ((j - 32) / 2) 0)
            else hiByte (pcm.getD ((j - 32) / 2) 0)) := by
  have hlen : (((memcpy (memset (memcpy frame 0 (ascii "USRP") 4) 4 0 28) 4
      (htonlBytes cnt) 4).set 15 (c.USRP_KEYUP_TRUE % 256))).length = frame.length := by
    have e1 := memcpy_length frame (ascii "USRP") 0 4 (by omega) (by decide)
    have e2 := memset_length (memcpy frame 0 (ascii "USRP") 4) 4 0 28 (by omega)
    have e3 := memcpy_length (memset (memcpy frame 0 (ascii "USRP") 4) 4 0 28)
      (htonlBytes cnt) 4 4 (by omega) (by simp [htonlBytes])
    rw [List.length_set, e3, e2, e1]
  simp only [encodeUSRPData, packPCM]
  rw [foldl_packStep_getElem?, hlen, if_pos (by omega)]

theorem decodePCM_length (f : Bytes) : (decodePCM f).length = 160 := by
  simp [decodePCM]

theorem decodePCM_getD (f : Bytes) (k : Nat) (hk : k < 160) :
    (decodePCM f).getD k 0 =
      toInt16 (((byteAt f (32 + (k * 2) + 1) <<< 8) ||| byteAt f (32 + (k * 2)) : Nat) : Int) := by
  simp [decodePCM, List.getD_eq_getElem?_getD, List.getElem?_map, List.getElem?_range hk]

theorem byteAt_lt (d : Bytes) (hb : ∀ b ∈ d, b < 256) (i : Nat) : byteAt d i < 256 := by
  unfold byteAt
  rw [List.getD_eq_getElem?_getD]
  by_cases h : i < d.length
  · rw [List.getElem?_eq_getElem h]
    exact hb _ (List.getElem_mem h)
  · rw [List.getElem?_eq_none (by omega)]
    decide

theorem byteAt_eq_getElem? (d : Bytes) (i : Nat) (h : i < d.length) :
    d[i]? = some (byteAt d i) := by
  unfold byteAt
  rw [List.getD_eq_getElem?_getD, List.getElem?_eq_getElem h, Option.getD_some]

/-- C2. Sample packing is lossless in both directions. For every 352-byte Voice datagram
`d` (marker "USRP", type VOICE, keyup true) the receive loop hands the Converter the 160
samples `decodePCM d`, and writing those samples back with the `TAG_USRP_DATA` encoder
gives bytes 32..351 equal to those of `d`; and for every array of 160 `int16_t` samples,
decoding the datagram the encoder builds from them returns the same samples. -/
theorem usrp_pcm_packing_lossless (c : Defines) (g : Gateway) (frame : Bytes) (cnt : Nat)
    (hframe : frame.length = 400) :
    (∀ d : Bytes, (∀ b ∈ d, b < 256) → classify c d = FrameA.Voice →
        (usrpRx c g d).2.getLast? = some (ConvEvent.putUSRP (decodePCM d))
        ∧ ((encodeUSRPData c frame cnt (decodePCM d)).take 352).drop 32 = d.drop 32)
    ∧ (∀ pcm : List Int, pcm.length = 160 → (∀ p ∈ pcm, -32768 ≤ p ∧ p ≤ 32767) →
        decodePCM ((encodeUSRPData c frame cnt pcm).take 352) = pcm) := by
  constructor
  · intro d hb hd
    obtain ⟨hlen, hm, ht, hv⟩ := classify_voice c d hd
    constructor
    · rw [usrpRx_voice c g d hlen hm ht hv]
      simp
    · apply List.ext_getElem?
      intro j
      rw [List.getElem?_drop, List.getElem?_drop]
      by_cases hj : j < 320
      · rw [List.getElem?_take_of_lt (by omega),
          encodeUSRPData_getElem? c frame cnt _ (by omega) (32 + j) (by omega) (by omega),
          byteAt_eq_getElem? d (32 + j) (by omega),
          decodePCM_getD d ((32 + j - 32) / 2) (by omega)]
        have hbs := bytes_sample_bytes (byteAt d (32 + ((32 + j - 32) / 2) * 2))
          (byteAt d (32 + ((32 + j - 32) / 2) * 2 + 1)) (byteAt_lt d hb _) (byteAt_lt d hb _)
        by_cases hpar : (32 + j - 32) % 2 = 0
        · rw [if_pos hpar, hbs.1]
          congr 2
          omega
        · rw [if_neg hpar, hbs.2]
          congr 2
          omega
      · rw [List.getElem?_take_eq_none (by omega), List.getElem?_eq_none (by omega)]
  · intro pcm hlen hr
    apply List.ext_getElem?
    intro k
    by_cases hk : k < 160
    · have hl1 : k < pcm.length := by rw [hlen]; exact hk
      have hl2 : k < (decodePCM ((encodeUSRPData c frame cnt pcm).take 352)).length := by
        rw [decodePCM_length]; exact hk
      have hd := decodePCM_getD ((encodeUSRPData c frame cnt pcm).take 352) k hk
      have e0 : byteAt ((encodeUSRPData c frame cnt pcm).take 352) (32 + k * 2)
          = loByte (pcm.getD k 0) := by
        unfold byteAt
        rw [List.getD_eq_getElem?_getD, List.getElem?_take_of_lt (by omega),
          encodeUSRPData_getElem? c frame cnt pcm (by omega) _ (by omega) (by omega)]
        have e1 : (32 + k * 2 - 32) % 2 = 0 := by omega
        have e2 : (32 + k * 2 - 32) / 2 = k := by omega
        rw [if_pos e1, e2, Option.getD_some]
      have e1 : byteAt ((encodeUSRPData c frame cnt pcm).take 352) (32 + k * 2 + 1)
          = hiByte (pcm.getD k 0) := by
        unfold byteAt
        rw [List.getD_eq_getElem?_getD, List.getElem?_take_of_lt (by omega),
          encodeUSRPData_getElem? c frame cnt pcm (by omega) _ (by omega) (by omega)]
        have e1 : ¬ (32 + k * 2 + 1 - 32) % 2 = 0 := by omega
        have e2 : (32 + k * 2 + 1 - 32) / 2 = k := by omega
        rw [if_neg e1, e2, Option.getD_some]
      have hpk : pcm.getD k 0 = pcm[k] := by
        rw [List.getD_eq_getElem?_getD, List.getElem?_eq_getElem hl1, Option.getD_some]
      have hrange := hr pcm[k] (List.getElem_mem _)
      rw [e0, e1, hpk, sample_bytes_sample _ hrange.1 hrange.2,
        List.getD_eq_getElem?_getD, List.getElem?_eq_getElem hl2, Option.getD_some] at hd
      rw [List.getElem?_eq_getElem hl2, List.getElem?_eq_getElem hl1, hd]
    · rw [List.getElem?_eq_none (by rw [decodePCM_length]; omega),
        List.getElem?_eq_none (by omega)]

/-! ## TextInfo encoder and decoder -/

theorem memcpy_getElem? (buf src : Bytes) (off n j : Nat) (h1 : off + n ≤ buf.length)
    (h2 : n ≤ src.length) :
    (memcpy buf off src n)[j]? = if off ≤ j ∧ j < off + n then src[j - off]? else buf[j]? := by
  unfold memcpy
  by_cases ha : j < off
  · have : ¬ (off ≤ j ∧ j < off + n) := by omega
    rw [if_neg this, List.append_assoc,
      List.getElem?_append_left (by rw [List.length_take]; omega),
      List.getElem?_take_of_lt ha]
  · by_cases hb : j < off + n
    · rw [if_pos (by omega), List.getElem?_append_left (by simp; omega),
        List.getElem?_append_right (by simp; omega), List.length_take,
        Nat.min_eq_left (by omega), List.getElem?_take_of_lt (by omega)]
    · have : ¬ (off ≤ j ∧ j < off + n) := by omega
      rw [if_neg this, List.getElem?_append_right (by simp; omega), List.getElem?_drop]
      congr 1
      simp
      omega

theorem memset_getElem? (buf : Bytes) (off v n j : Nat) (h1 : off + n ≤ buf.length) :
    (memset buf off v n)[j]? = if off ≤ j ∧ j < off + n then some (v % 256) else buf[j]? := by
  unfold memset
  by_cases ha : j < off
  · have : ¬ (off ≤ j ∧ j < off + n) := by omega
    rw [if_neg this, List.append_assoc,
      List.getElem?_append_left (by rw [List.length_take]; omega),
      List.getElem?_take_of_lt ha]
  · by_cases hb : j < off + n
    · rw [if_pos (by omega), List.getElem?_append_left (by simp; omega),
        List.getElem?_append_right (by simp; omega), List.length_take,
        Nat.min_eq_left (by omega), List.getElem?_replicate, if_pos (by omega)]
    · have : ¬ (off ≤ j ∧ j < off + n) := by omega
      rw [if_neg this, List.getElem?_append_right (by simp; omega), List.getElem?_drop]
      congr 1
      simp
      omega

theorem takeWhile_pointwise (cs : Bytes) : ∀ (l : Bytes),
    (∀ i, i < cs.length → l[i]? = cs[i]?) → (l[cs.length]?).getD 0 = 0 →
    (∀ b ∈ cs, b ≠ 0) → l.takeWhile (fun b => b != 0) = cs := by
  induction cs with
  | nil =>
    intro l _ h0 _
    cases l with
    | nil => rfl
    | cons x xs =>
      simp at h0
      simp [List.takeWhile_cons, h0]
  | cons c cs ih =>
    intro l hp h0 hn
    cases l with
    | nil =>
      have := hp 0 (by simp)
      simp at this
    | cons x xs =>
      have hx := hp 0 (by simp)
      simp at hx
      subst hx
      have hne : x ≠ 0 := hn x (List.mem_cons_self _ _)
      rw [List.takeWhile_cons]
      simp only [bne_iff_ne, ne_eq, hne, not_false_eq_true, if_true]
      congr 1
      apply ih
      · intro i hi
        have := hp (i + 1) (by simp; omega)
        simpa using this
      · simpa using h0
      · intro b hb
        exact hn b (List.mem_cons_of_mem _ hb)

/-- Bytes of the buffer built by the `TAG_USRP_HEADER` branch. -/
theorem encodeUSRPHeader_getElem? (c : Defines) (frame : Bytes) (n : Nat) (cs : Bytes)
    (hf : frame.length = 400) (hcs : cs.length ≤ 306) (j : Nat) :
    (encodeUSRPHeader c frame n cs)[j]? =
      if 46 ≤ j ∧ j < 46 + cs.length then cs[j - 46]?
      else if 33 = j then some ((13 + cs.length) % 256)
      else if 32 = j then some (c.TLV_TAG_SET_INFO % 256)
      else if 20 = j then some (c.USRP_TYPE_TEXT % 256)
      else if 15 = j then some (c.USRP_KEYUP_FALSE % 256)
      else if 4 ≤ j ∧ j < 4 + 4 then (htonlBytes n)[j - 4]?
      else if 0 ≤ j ∧ j < 0 + 4 then (ascii "USRP")[j - 0]?
      else if 0 ≤ j ∧ j < 0 + 352 then some (0 % 256)
      else frame[j]? := by
  have l1 := memset_length frame 0 0 352 (by omega)
  have l2 := memcpy_length (memset frame 0 0 352) (ascii "USRP") 0 4 (by omega) (by decide)
  have l3 := memcpy_length (memcpy (memset frame 0 0 352) 0 (ascii "USRP") 4)
    (htonlBytes n) 4 4 (by omega) (by simp [htonlBytes])
  simp only [encodeUSRPHeader]
  rw [memcpy_getElem? _ _ _ _ _ (by simp only [List.length_set]; omega) (Nat.le_refl _)]
  simp only [List.getElem?_set, List.length_set]
  rw [memcpy_getElem? _ _ _ _ _ (by omega) (by simp [htonlBytes]),
    memcpy_getElem? _ _ _ _ _ (by omega) (by decide),
    memset_getElem? _ _ _ _ _ (by omega)]
  have e33 : 33 < (memcpy (memcpy (memset frame 0 0 352) 0 (ascii "USRP") 4) 4
      (htonlBytes n) 4).length := by omega
  have e32 : 32 < (memcpy (memcpy (memset frame 0 0 352) 0 (ascii "USRP") 4) 4
      (htonlBytes n) 4).length := by omega
  have e20 : 20 < (memcpy (memcpy (memset frame 0 0 352) 0 (ascii "USRP") 4) 4
      (htonlBytes n) 4).length := by omega
  have e15 : 15 < (memcpy (memcpy (memset frame 0 0 352) 0 (ascii "USRP") 4) 4
      (htonlBytes n) 4).length := by omega
  simp only [if_pos e33, if_pos e32, if_pos e20, if_pos e15]

theorem encodeUSRPHeader_length (c : Defines) (frame : Bytes) (n : Nat) (cs : Bytes)
    (hf : frame.length = 400) (hcs : cs.length ≤ 306) :
    (encodeUSRPHeader c frame n cs).length = 400 := by
  have l1 := memset_length frame 0 0 352 (by omega)
  have l2 := memcpy_length (memset frame 0 0 352) (ascii "USRP") 0 4 (by omega) (by decide)
  have l3 := memcpy_length (memcpy (memset frame 0 0 352) 0 (ascii "USRP") 4)
    (htonlBytes n) 4 4 (by omega) (by simp [htonlBytes])
  simp only [encodeUSRPHeader]
  rw [memcpy_length _ _ _ _ (by simp only [List.length_set]; omega) (Nat.le_refl _)]
  simp only [List.length_set]
  omega

/-- C3, as stated, fails. (a) The datagram the encoder builds from "W1AW" is decoded to the
stored callsign "W1AW      " (padded to 10 bytes), not "W1AW". (b) For a 306-byte callsign
the string fills the datagram up to its last byte, and the decoder reads on into what an
earlier, longer datagram left in the receive buffer: here one stale byte `B` is appended. -/
theorem textinfo_roundtrip_not_exact :
    ((usrpRx Defines.sample Gateway.init
        ((encodeUSRPHeader Defines.sample (List.replicate 400 0) 0 (ascii "W1AW")).take 352)).1.m_usrpcs
        = ascii "W1AW      "
      ∧ (usrpRx Defines.sample Gateway.init
          ((encodeUSRPHeader Defines.sample (List.replicate 400 0) 0 (ascii "W1AW")).take 352)).1.m_usrpcs
        ≠ ascii "W1AW")
    ∧ ((usrpRx Defines.sample
          (usrpRx Defines.sample Gateway.init (List.replicate 353 66 ++ [0])).1
          ((encodeUSRPHeader Defines.sample (List.replicate 400 0) 0
            (List.replicate 306 65)).take 352)).1.m_usrpcs
        = List.replicate 306 65 ++ [66]
      ∧ (usrpRx Defines.sample
          (usrpRx Defines.sample Gateway.init (List.replicate 353 66 ++ [0])).1
          ((encodeUSRPHeader Defines.sample (List.replicate 400 0) 0
            (List.replicate 306 65)).take 352)).1.m_usrpcs
        ≠ List.replicate 306 65) := by
  decide

/-- C3, amended. For every callsign `cs` with no NUL byte and at most 306 bytes and every
sequence number `n`, the 352-byte datagram built by the `TAG_USRP_HEADER` encoder is
classified TextInfo, and receiving it stores `cs` padded on the right with spaces to 10
bytes, which is `cs` itself when `cs` has 10 bytes or more. For a 306-byte `cs` this needs
byte 352 of the receive buffer to be NUL. (The constants TEXT and set-info are byte
values.) -/
theorem textinfo_roundtrip_padded (c : Defines) (g : Gateway) (frame : Bytes) (n : Nat)
    (cs : Bytes) (hf : frame.length = 400)
    (hT : c.USRP_TYPE_TEXT < 256) (hS : c.TLV_TAG_SET_INFO < 256)
    (hnul : ∀ b ∈ cs, b ≠ 0) (hcs : cs.length ≤ 306)
    (hclean : cs.length = 306 → byteAt g.m_usrpFrame 352 = 0) :
    classify c ((encodeUSRPHeader c frame n cs).take 352) = FrameA.TextInfo
      ∧ (usrpRx c g ((encodeUSRPHeader c frame n cs).take 352)).1.m_usrpcs = pad_callsign cs 10
      ∧ (10 ≤ cs.length →
          (usrpRx c g ((encodeUSRPHeader c frame n cs).take 352)).1.m_usrpcs = cs) := by
  have hE := encodeUSRPHeader_getElem? c frame n cs hf hcs
  have hL := encodeUSRPHeader_length c frame n cs hf hcs
  generalize encodeUSRPHeader c frame n cs = E at hE hL
  have hdl : (E.take 352).length = 352 := by rw [List.length_take]; omega
  have hget : ∀ j, j < 352 → (E.take 352)[j]? = E[j]? :=
    fun j hj => List.getElem?_take_of_lt hj
  have hm : (E.take 352).take 4 = ascii "USRP" := by
    apply List.ext_getElem?
    intro j
    by_cases hj : j < 4
    · rw [List.getElem?_take_of_lt hj, hget j (by omega), hE j]
      have a1 : ¬ (46 ≤ j ∧ j < 46 + cs.length) := by omega
      have a2 : ¬ (33 = j) := by omega
      have a3 : ¬ (32 = j) := by omega
      have a4 : ¬ (20 = j) := by omega
      have a5 : ¬ (15 = j) := by omega
      have a6 : ¬ (4 ≤ j ∧ j < 4 + 4) := by omega
      have a7 : 0 ≤ j ∧ j < 0 + 4 := by omega
      simp only [if_neg a1, if_neg a2, if_neg a3, if_neg a4, if_neg a5, if_neg a6, if_pos a7,
        Nat.sub_zero]
    · rw [List.getElem?_take_eq_none (by omega), List.getElem?_eq_none]
      have : (ascii "USRP").length = 4 := by decide
      omega
  have h20 : byteAt (E.take 352) 20 = c.USRP_TYPE_TEXT := by
    unfold byteAt
    rw [List.getD_eq_getElem?_getD, hget 20 (by omega), hE 20]
    have a1 : ¬ (46 ≤ 20 ∧ 20 < 46 + cs.length) := by omega
    simp only [if_neg a1]
    simp [Nat.mod_eq_of_lt hT]
  have h32 : byteAt (E.take 352) 32 = c.TLV_TAG_SET_INFO := by
    unfold byteAt
    rw [List.getD_eq_getElem?_getD, hget 32 (by omega), hE 32]
    have a1 : ¬ (46 ≤ 32 ∧ 32 < 46 + cs.length) := by omega
    simp only [if_neg a1]
    simp [Nat.mod_eq_of_lt hS]
  have hcl : classify c (E.take 352) = FrameA.TextInfo := by
    simp [classify, hm, hdl, h20, h32]
  have hstore : (usrpRx c g (E.take 352)).1.m_usrpcs = pad_callsign cs 10 := by
    rw [usrpRx_text c g (E.take 352) hdl hm ⟨h20, h32⟩]
    show pad_callsign (cstrAt (recvInto g.m_usrpFrame 400 (E.take 352)).1 46) 10 = _
    congr 1
    unfold cstrAt
    apply takeWhile_pointwise
    · intro i hi
      rw [List.getElem?_drop]
      simp only [recvInto, hdl]
      rw [List.getElem?_append_left (by simp; omega), List.getElem?_take_of_lt (by omega),
        hget _ (by omega), hE]
      have a1 : 46 ≤ 46 + i ∧ 46 + i < 46 + cs.length := by omega
      rw [if_pos a1]
      congr 1
      omega
    · rw [List.getElem?_drop]
      simp only [recvInto, hdl]
      by_cases h306 : cs.length = 306
      · rw [List.getElem?_append_right (by simp; omega)]
        have hb := hclean h306
        unfold byteAt at hb
        rw [List.getD_eq_getElem?_getD] at hb
        rw [List.getElem?_drop]
        simp only [List.length_take, List.length_take, hL]
        rw [← hb]
        congr 2
        omega
      · rw [List.getElem?_append_left (by simp; omega), List.getElem?_take_of_lt (by omega),
          hget _ (by omega), hE]
        have a1 : ¬ (46 ≤ 46 + cs.length ∧ 46 + cs.length < 46 + cs.length) := by omega
        have a2 : ¬ (33 = 46 + cs.length) := by omega
        have a3 : ¬ (32 = 46 + cs.length) := by omega
        have a4 : ¬ (20 = 46 + cs.length) := by omega
        have a5 : ¬ (15 = 46 + cs.length) := by omega
        have a6 : ¬ (4 ≤ 46 + cs.length ∧ 46 + cs.length < 4 + 4) := by omega
        have a7 : ¬ (0 ≤ 46 + cs.length ∧ 46 + cs.length < 0 + 4) := by omega
        have a8 : 0 ≤ 46 + cs.length ∧ 46 + cs.length < 0 + 352 := by omega
        simp only [if_neg a1, if_neg a2, if_neg a3, if_neg a4, if_neg a5, if_neg a6, if_neg a7,
          if_pos a8]
        rfl
    · exact hnul
  refine ⟨hcl, hstore, ?_⟩
  intro h10
  rw [hstore]
  have : ¬ (10 > cs.length) := by omega
  simp [pad_callsign, this]

/-! ## Voice/data-mode slot selection -/

theorem foldl_fillTag_length (tag : Bytes) (n : Nat) (a : Bytes) :
    ((List.range n).foldl (fun a i => a.set i (byteAt tag i)) a).length = a.length := by
  induction n with
  | zero => simp
  | succ m ihm => simp [List.range_succ, List.foldl_append, ihm]

theorem foldl_fillTag_getElem? (tag : Bytes) (n : Nat) (hn : n ≤ 10) (j : Nat) :
    ((List.range n).foldl (fun a i => a.set i (byteAt tag i)) (List.replicate 10 0))[j]? =
      if j < n then some (byteAt tag j) else (List.replicate 10 0)[j]? := by
  induction n with
  | zero => simp
  | succ n ih =>
    have hl := foldl_fillTag_length tag n (List.replicate 10 0)
    rw [List.length_replicate] at hl
    simp only [List.range_succ, List.foldl_append, List.foldl_cons, List.foldl_nil,
      List.getElem?_set, hl, ih (by omega)]
    by_cases h1 : n = j
    · subst h1
      have h2 : n < 10 := by omega
      have h3 : n < n + 1 := by omega
      simp only [if_true, if_pos h2, if_pos h3]
    · simp only [if_neg h1]
      by_cases h2 : j < n
      · have h3 : j < n + 1 := by omega
        simp only [if_pos h2, if_pos h3]
      · have h3 : ¬ j < n + 1 := by omega
        simp only [if_neg h2, if_neg h3]

/-- The tag array is the tag cut to 10 bytes and zero-filled on the right. -/
theorem fillTag_eq (tag : Bytes) :
    fillTag tag = tag.take 10 ++ List.replicate (10 - tag.length) 0 := by
  apply List.ext_getElem?
  intro j
  unfold fillTag
  rw [foldl_fillTag_getElem? tag _ (Nat.min_le_right _ _) j]
  by_cases h1 : j < min tag.length 10
  · rw [if_pos h1, List.getElem?_append_left (by rw [List.length_take]; omega),
      List.getElem?_take_of_lt (by omega), byteAt_eq_getElem? tag j (by omega)]
  · rw [if_neg h1, List.getElem?_append_right (by rw [List.length_take]; omega),
      List.getElem?_replicate, List.getElem?_replicate, List.length_take]
    by_cases h2 : j < 10
    · rw [if_pos h2, if_pos (by omega)]
    · rw [if_neg h2, if_neg (by omega)]

theorem c_str_read_of_le (s : Bytes) (after : Nat → Nat) (n : Nat) (h : n ≤ s.length) :
    c_str_read s after n = s.take n := by
  unfold c_str_read
  rw [List.append_assoc, List.take_append_of_le_length h]

/-- The `switch` of the `TAG_DATA` branch follows the slot table. -/
theorem vdData_eq_spec (conf : Conf) (cs : Bytes) (slot : Nat)
    (hrid : 5 ≤ conf.getYsfRadioID.length) (hcs : 10 ≤ cs.length) :
    vdData conf cs slot = specSlotBlock conf cs slot := by
  have hr := c_str_read_of_le conf.getYsfRadioID conf.afterRadioID 5 hrid
  have hc := c_str_read_of_le cs conf.afterCallsign 10 hcs
  have hl5 : (conf.getYsfRadioID.take 5).length = 5 := by rw [List.length_take]; omega
  rcases slot with _ | _ | _ | _ | _ | _ | _ | _ | n
  · simp only [vdData, YSF_CALLSIGN_LENGTH, hr, specSlotBlock, if_true]
    simp [memcpy, memset, List.take_of_length_le (Nat.le_of_eq hl5)]
    rfl
  · simp [vdData, hc, specSlotBlock]
  · simp [vdData, hc, specSlotBlock]
  · simp [vdData, specSlotBlock]; decide
  · simp [vdData, specSlotBlock]; decide
  · simp only [vdData, YSF_CALLSIGN_LENGTH, hr, specSlotBlock]
    simp [memcpy, memset, List.take_of_length_le (Nat.le_of_eq hl5)]
    rfl
  · simp [vdData, specSlotBlock, fillTag_eq]
  · simp [vdData, specSlotBlock, fillTag_eq]
  · simp [vdData, specSlotBlock]; decide

theorem dataFN_eq (cnt ft : Nat) (hft : ft + 1 < 2 ^ 32) :
    dataFN cnt ft = some ((cnt + 2 ^ 32 - 1) % 2 ^ 32 % (ft + 1)) := by
  unfold dataFN
  have h1 : (ft + 1) % 2 ^ 32 = ft + 1 := Nat.mod_eq_of_lt hft
  simp only [h1]
  rw [if_neg (by omega)]

/-- C8, as stated, fails at counter value 0 (reached when the 8-bit counter wraps, or by a
data frame fetched before any header): with frame total 6 the claim's slot is
`(0 - 1) mod 7 = 6`, whose block is the data tag DT1, while the code computes
`(0 - 1U) % 7 = 3` in unsigned arithmetic, sets FN to 3 and passes 10 spaces. -/
theorem ysf_vd_slot_counter_zero :
    (ysfTxData Defines.sample { Conf.sample with getFICHFrameTotal := 6 }
        { Gateway.init with m_usrpcs := ascii "W1AW      ", ysf_cnt := 0 }).map
        (fun r => r.2.map (fun o => (o.fich.FN, o.payload)))
        = some [(3, PayloadCall.writeVDMode2Data (ascii "          "))]
      ∧ ((0 : Int) - 1) % (6 + 1) = 6
      ∧ specSlotBlock { Conf.sample with getFICHFrameTotal := 6 } (ascii "W1AW      ") 6
          = [1, 34, 97, 95, 43, 3, 17, 0, 0, 0]
      ∧ specSlotBlock { Conf.sample with getFICHFrameTotal := 6 } (ascii "W1AW      ") 6
          ≠ ascii "          " := by
  decide

/-- C8, amended. In the `TAG_DATA` branch, for every counter value `c` from 1 to 255 and
every frame total FT (with `FT + 1` below `2 ^ 32`), a radio id of at least 5 bytes and a
stored callsign of at least 10 bytes, exactly one frame is written; with
`slot = (c - 1) mod (FT + 1)` its FICH frame number FN is `slot` and the 10-byte block
given to `writeVDMode2Data` is the one the slot table assigns to `slot`: slot 0 "*****" and
5 bytes of radio id, slots 1 and 2 the first 10 bytes of the stored callsign, slot 5 five
spaces and 5 bytes of radio id, slots 6 and 7 the data tags DT1 and DT2 cut to 10 bytes and
zero-filled, every other slot 10 spaces. -/
theorem ysf_vd_slot_selection (c : Defines) (conf : Conf) (g : Gateway)
    (hc1 : 1 ≤ g.ysf_cnt) (hc2 : g.ysf_cnt ≤ 255)
    (hrid : 5 ≤ conf.getYsfRadioID.length) (hcs : 10 ≤ g.m_usrpcs.length)
    (hft : conf.getFICHFrameTotal + 1 < 2 ^ 32) :
    (ysfTxData c conf g).map (fun r => r.2.map (fun o => (o.fich.FN, o.payload)))
        = some [((g.ysf_cnt - 1) % (conf.getFICHFrameTotal + 1),
            PayloadCall.writeVDMode2Data (specSlotBlock conf g.m_usrpcs
              ((g.ysf_cnt - 1) % (conf.getFICHFrameTotal + 1))))] := by
  have h : (g.ysf_cnt + 2 ^ 32 - 1) % 2 ^ 32 = g.ysf_cnt - 1 := by omega
  simp only [ysfTxData, dataFN_eq _ _ hft, h, Option.map_some', ysfTxDataWith,
    vdData_eq_spec conf g.m_usrpcs _ hrid hcs, fichOf, List.map_cons, List.map_nil]

/-- C8 amended, concrete run: callsign "W1AW      ", radio id "H5000", frame total 7 and
counter 1 give slot 0 and the block "*****H5000". -/
theorem ysf_vd_slot_selection_witness :
    (ysfTxData Defines.sample Conf.sample
        { Gateway.init with m_usrpcs := ascii "W1AW      ", ysf_cnt := 1 }).map
        (fun r => r.2.map (fun o => (o.fich.FN, o.payload)))
      = some [(0, PayloadCall.writeVDMode2Data (ascii "*****H5000"))] :=
  ysf_vd_slot_selection Defines.sample Conf.sample
    { Gateway.init with m_usrpcs := ascii "W1AW      ", ysf_cnt := 1 }
    (by decide) (by decide) (by decide) (by decide) (by decide)

/-- C2, concrete run: a Voice datagram whose sample bytes are all `0xC8`, and 160 samples
running from -32000 upwards in steps of 400. -/
theorem usrp_pcm_packing_lossless_witness :
    ((encodeUSRPData Defines.sample (List.replicate 400 0) 7
        (decodePCM (sampleVoice 200))).take 352).drop 32 = (sampleVoice 200).drop 32
      ∧ decodePCM ((encodeUSRPData Defines.sample (List.replicate 400 0) 7
          ((List.range 160).map (fun i => (i : Int) * 400 - 32000))).take 352)
        = (List.range 160).map (fun i => (i : Int) * 400 - 32000) :=
  ⟨((usrp_pcm_packing_lossless Defines.sample Gateway.init (List.replicate 400 0) 7
      (by decide)).1 (sampleVoice 200) (by decide) (by decide)).2,
   (usrp_pcm_packing_lossless Defines.sample Gateway.init (List.replicate 400 0) 7
      (by decide)).2 ((List.range 160).map (fun i => (i : Int) * 400 - 32000))
      (by decide) (by decide)⟩

/-- C3 amended, concrete run: an 11-byte callsign comes back unchanged. -/
theorem textinfo_roundtrip_padded_witness :
    (usrpRx Defines.sample Gateway.init
      ((encodeUSRPHeader Defines.sample (List.replicate 400 0) 5
        (ascii "AC8ZD/DAVE1")).take 352)).1.m_usrpcs = ascii "AC8ZD/DAVE1" :=
  (textinfo_roundtrip_padded Defines.sample Gateway.init (List.replicate 400 0) 5
    (ascii "AC8ZD/DAVE1") (by decide) (by decide) (by decide) (by decide) (by decide)
    (by decide)).2.2 (by decide)

/-! ## Foreign-source datagrams -/

/-- C12. When a socket delivers a datagram of positive length whose source does not match
the configured peer, the reader returns 0 (`readData` of `CUSRPNetwork` and of
`CM17Network`, and the reader of the YSF side), and it returns the datagram length when the
source matches. For a foreign datagram the engine then dispatches nothing, under both
directions: the loop at line 272 and the loop at line 309 make no Converter call and leave
the stored callsign and the frame counter (the loop at 309: the whole state) unchanged,
and so does any loop of that shape around `CM17Network::readData`; a datagram from the peer
is handled as by the loop body. -/
theorem foreign_source_dropped (c : Defines) (g : Gateway) (d : Bytes) (sockLen : Int)
    (r : YSFRead) (hpos : 0 < sockLen) (hfit : sockLen < 2 ^ 32) (hd : 0 < d.length) :
    CUSRPNetwork.readData sockLen false = 0
      ∧ CM17Network.readData sockLen false = 0
      ∧ CYSFNetwork.read sockLen false = 0
      ∧ CUSRPNetwork.readData sockLen true = sockLen.toNat
      ∧ CM17Network.readData sockLen true = sockLen.toNat
      ∧ CYSFNetwork.read sockLen true = sockLen.toNat
      ∧ (usrpRxFrom c g d false).2 = []
      ∧ (usrpRxFrom c g d false).1.m_usrpcs = g.m_usrpcs
      ∧ (usrpRxFrom c g d false).1.m_usrpFrames = g.m_usrpFrames
      ∧ usrpRxFrom c g d true = usrpRx c g d
      ∧ (r.len = 0 → ysfRx c g r = (g, []))
      ∧ ysfRxFrom c g r sockLen false = (g, [])
      ∧ ysfRxFrom c g r sockLen true = ysfRxBody c g r
      ∧ (∀ (σ ε : Type) (body : σ → Nat → σ × List ε) (s : σ),
          readLoopPass (CM17Network.readData sockLen false) body s = (s, [])
            ∧ readLoopPass (CM17Network.readData sockLen true) body s
                = body s sockLen.toNat) := by
  have h1 : ¬ sockLen ≤ 0 := by omega
  have h2 : sockLen.toNat % 2 ^ 32 = sockLen.toNat := by
    apply Nat.mod_eq_of_lt
    omega
  have h3 : ¬ ((min d.length 400 : Nat) : Int) ≤ 0 := by omega
  have h4 : ((min d.length 400 : Nat) : Int).toNat % 2 ^ 32 = min d.length 400 := by
    rw [Int.toNat_ofNat]
    apply Nat.mod_eq_of_lt
    omega
  have h5 : min d.length 400 ≠ 0 := by omega
  have h6 : 0 < sockLen.toNat := by omega
  have m0 : CM17Network.readData sockLen false = 0 := by simp [CM17Network.readData]
  have m1 : CM17Network.readData sockLen true = sockLen.toNat := by
    simp only [CM17Network.readData, if_neg h1, h2]
    rfl
  have y0 : CYSFNetwork.read sockLen false = 0 := by simp [CYSFNetwork.read]
  have y1 : CYSFNetwork.read sockLen true = sockLen.toNat := by
    simp only [CYSFNetwork.read, if_neg h1, h2]
    rfl
  refine ⟨?_, m0, y0, ?_, m1, y1, ?_, ?_, ?_, ?_, ?_, ?_, ?_, ?_⟩
  · simp [CUSRPNetwork.readData]
  · simp only [CUSRPNetwork.readData, if_neg h1, h2]
    rfl
  · simp [usrpRxFrom, CUSRPNetwork.readData]
  · simp [usrpRxFrom, CUSRPNetwork.readData]
  · simp [usrpRxFrom, CUSRPNetwork.readData]
  · simp only [usrpRxFrom, usrpRx, CUSRPNetwork.readData, recvInto_len, if_neg h3, h4]
    simp [h5]
  · intro h0
    simp [ysfRx, h0]
  · simp [ysfRxFrom, ysfRx, y0]
  · simp only [ysfRxFrom, ysfRx, y1, if_pos h6]
    rfl
  · intro σ ε body s
    have h7 : sockLen.toNat ≠ 0 := by omega
    rw [m0, m1]
    simp [readLoopPass, h7]

/-- C12, concrete run: a well-formed end-of-transmission datagram sent to the USRP port
by a foreign source in mid-call is not dispatched, and neither is a valid Terminator frame
sent to the YSF port by a foreign source. -/
theorem foreign_source_dropped_witness :
    (usrpRxFrom Defines.sample
        { Gateway.init with m_usrpcs := ascii "W1AW      ", m_usrpFrames := 6 }
        sampleEOT false).2 = []
      ∧ (usrpRxFrom Defines.sample
          { Gateway.init with m_usrpcs := ascii "W1AW      ", m_usrpFrames := 6 }
          sampleEOT false).1.m_usrpcs = ascii "W1AW      "
      ∧ (usrpRxFrom Defines.sample
          { Gateway.init with m_usrpcs := ascii "W1AW      ", m_usrpFrames := 6 }
          sampleEOT false).1.m_usrpFrames = 6
      ∧ ysfRxFrom Defines.sample
          { Gateway.init with m_usrpcs := ascii "W1AW      ", m_usrpFrames := 6 }
          (sampleYSFRead 2) 155 false
          = ({ Gateway.init with m_usrpcs := ascii "W1AW      ", m_usrpFrames := 6 }, []) := by
  have h := foreign_source_dropped Defines.sample
    { Gateway.init with m_usrpcs := ascii "W1AW      ", m_usrpFrames := 6 }
    sampleEOT 155 (sampleYSFRead 2) (by decide) (by decide) (by decide)
  exact ⟨h.2.2.2.2.2.2.1, h.2.2.2.2.2.2.2.1, h.2.2.2.2.2.2.2.2.1,
    h.2.2.2.2.2.2.2.2.2.2.2.1⟩

/-! ## Output pacing -/

theorem ysfTxData_eq (c : Defines) (conf : Conf) (g : Gateway)
    (hft : conf.getFICHFrameTotal + 1 < 2 ^ 32) :
    ∃ r, ysfTxData c conf g = some r ∧ r.1.m_usrpcs = g.m_usrpcs
      ∧ r.1.ysf_cnt = (g.ysf_cnt + 1) % 256
      ∧ r.2.map (fun o => o.fich.FN)
          = [(g.ysf_cnt + 2 ^ 32 - 1) % 2 ^ 32 % (conf.getFICHFrameTotal + 1)] := by
  have h : ysfTxData c conf g = some (ysfTxDataWith c conf g
      ((g.ysf_cnt + 2 ^ 32 - 1) % 2 ^ 32 % (conf.getFICHFrameTotal + 1))) := by
    simp only [ysfTxData, dataFN_eq _ _ hft, Option.map_some']
  exact ⟨_, h, rfl, rfl, rfl⟩

theorem ysfTxHeader_eq (c : Defines) (conf : Conf) (g : Gateway) :
    (ysfTxHeader c conf g).1.m_usrpcs = g.m_usrpcs ∧ (ysfTxHeader c conf g).1.ysf_cnt = 1
      ∧ (ysfTxHeader c conf g).2.map (fun o => o.fich.FN) = [0] :=
  ⟨rfl, rfl, rfl⟩

/-- Frame numbers of `n` consecutive data frames: the counter runs modulo 256. Here `F`
stands for the frame number computed from a counter value. -/
theorem ysfTxRun_data_FNs (c : Defines) (conf : Conf) (n : Nat) (F : Nat → Nat)
    (hdist : c.TAG_DATA ≠ c.TAG_HEADER ∧ c.TAG_DATA ≠ c.TAG_EOT)
    (hF : ∀ g : Gateway,
      ∃ r, ysfTxData c conf g = some r ∧ r.1.m_usrpcs = g.m_usrpcs
        ∧ r.1.ysf_cnt = (g.ysf_cnt + 1) % 256
        ∧ r.2.map (fun o => o.fich.FN) = [F g.ysf_cnt]) :
    ∀ g : Gateway, g.ysf_cnt < 256 →
      ∃ r, ysfTxRun c conf g (List.replicate n c.TAG_DATA) = some r
        ∧ r.2.map (fun o => o.fich.FN)
            = (List.range n).map (fun j => F ((g.ysf_cnt + j) % 256)) := by
  induction n with
  | zero => intro g _; exact ⟨(g, []), rfl, rfl⟩
  | succ n ih =>
    intro g hc
    obtain ⟨d, hd, _, hd2, hfn⟩ := hF g
    obtain ⟨r, hr, hl⟩ := ih d.1 (by rw [hd2]; exact Nat.mod_lt _ (by decide))
    have htx : ysfTx c conf g c.TAG_DATA = ysfTxData c conf g := by
      simp [ysfTx, hdist.1, hdist.2]
    refine ⟨(r.1, d.2 ++ r.2), ?_, ?_⟩
    · rw [List.replicate_succ, ysfTxRun, htx, hd]
      simp only [hr]
    · have e0 : F ((g.ysf_cnt + 0) % 256) = F g.ysf_cnt := by
        rw [Nat.add_zero, Nat.mod_eq_of_lt hc]
      have e1 : ∀ j, F ((d.1.ysf_cnt + j) % 256) = F ((g.ysf_cnt + (j + 1)) % 256) := by
        intro j
        rw [hd2]
        congr 1
        omega
      rw [List.map_append, hl, hfn, List.range_succ_eq_map, List.map_cons, List.map_map, e0,
        List.singleton_append]
      simp only [e1, Function.comp]
      rfl

/-- Frame numbers of a whole transmission, for every stored callsign: 0 in the header
frame, and in data frame `k` the value `(cnt - 1U) % (FT + 1)` for the 8-bit counter
`cnt = (k + 1) mod 256`. -/
theorem transmissionFNs_eq (c : Defines) (conf : Conf) (g : Gateway) (n : Nat)
    (hdist : c.TAG_DATA ≠ c.TAG_HEADER ∧ c.TAG_DATA ≠ c.TAG_EOT)
    (hft : conf.getFICHFrameTotal + 1 < 2 ^ 32) :
    transmissionFNs c conf g n = some (0 :: (List.range n).map (fun k =>
      ((1 + k) % 256 + 2 ^ 32 - 1) % 2 ^ 32 % (conf.getFICHFrameTotal + 1))) := by
  obtain ⟨_, hh2, hfn⟩ := ysfTxHeader_eq c conf g
  obtain ⟨r, hr, hl⟩ := ysfTxRun_data_FNs c conf n
    (fun cnt => (cnt + 2 ^ 32 - 1) % 2 ^ 32 % (conf.getFICHFrameTotal + 1)) hdist
    (fun g' => ysfTxData_eq c conf g' hft) (ysfTxHeader c conf g).1
    (by rw [hh2]; decide)
  have htx : ysfTx c conf g c.TAG_HEADER = some (ysfTxHeader c conf g) := by simp [ysfTx]
  rw [transmissionFNs, ysfTxRun, htx]
  simp only [hr, Option.map_some', List.map_append, hfn, hl, hh2, List.singleton_append]

/-- Up to data frame 254 the frame number is `k mod (FT + 1)`. -/
theorem fn_before_wrap (k ft : Nat) (hk : k < 255) :
    ((1 + k) % 256 + 2 ^ 32 - 1) % 2 ^ 32 % (ft + 1) = k % (ft + 1) := by
  have h : ((1 + k) % 256 + 2 ^ 32 - 1) % 2 ^ 32 = k := by omega
  rw [h]

/-- C14, evaluation at the failing input: with frame total 6, the frames of a
transmission of one header and 257 data frames carry, for the data frames k = 254, 255 and
256, the frame numbers 2, 3 and 0. The claim asks for 256 mod 7 = 4 in the last one: the
8-bit counter has wrapped from 255 to 0 and the cycle restarts at 0 after 3. -/
theorem ysf_fn_cycle_breaks_at_wrap :
    (transmissionFNs Defines.sample { Conf.sample with getFICHFrameTotal := 6 }
        { Gateway.init with m_usrpcs := ascii "W1AW      " } 257).map (fun l => l.drop 255)
        = some [2, 3, 0]
      ∧ 254 % (6 + 1) = 2 ∧ 255 % (6 + 1) = 3 ∧ 256 % (6 + 1) = 4 := by
  decide

/-! ## The stored callsign is shared by the two directions -/

end USRP2YSF
